import Mathlib

/-!
# Voice Agent CLI: service lifecycle supervisor

A shallow embedding of `src/cli/lib/services.js`.

* Promises are modelled by their state (`PromiseState`); a promise settles at
  most once, later calls of `resolve` / `reject` are ignored.
* Everything the supervisor prints (spinner updates and console lines) is
  collected, in order, in a list of `Log` entries: this list is the report.
* The operating system is an explicit input: the status returned by the
  probes, the outcome of each launch, the order in which launches settle, and
  for a single launch the sequence of events delivered to its handlers.
-/

namespace VoiceAgent

/-! ## Data model -/

/-- Keys of the `SERVICES` table. The source compares service objects by
identity (`service === SERVICES.middleware`), which is comparison of keys. -/
inductive ServiceId
  | middleware
  | ui
  | jade
  deriving DecidableEq, Repr

/-- One entry of the `SERVICES` table. `port` and `healthCheck` are `null`
for some services. -/
structure Service where
  name : String
  port : Option Nat
  dir : String
  startCmd : String
  processNamePattern : String
  healthCheck : Option String
  deriving DecidableEq, Repr

/-- What the module reads from its environment: `process.platform`, the
project root computed by `path.resolve`, and the library functions
`path.join` and `fs.existsSync`. -/
structure Env where
  platform : String
  projectRoot : String
  pathJoin : String → String → String
  existsSync : String → Bool

/-- The `SERVICES` table. -/
def SERVICES (env : Env) : ServiceId → Service
  | .middleware =>
    { name := "Middleware API"
      port := some 3000
      dir := env.pathJoin env.projectRoot "middleware"
      startCmd := "node server.js"
      processNamePattern := "node server.js"
      healthCheck := some "http://localhost:3000/" }
  | .ui =>
    { name := "Voice UI"
      port := some 8080
      dir := env.pathJoin env.projectRoot "voice-ui"
      startCmd := "npx http-server -p 8080"
      processNamePattern := "http-server.*voice-ui"
      healthCheck := some "http://localhost:8080/" }
  | .jade =>
    { name := "JADE Platform"
      port := none
      dir := env.pathJoin env.projectRoot "jade-platform"
      startCmd :=
        if env.platform = "win32" then
          "java -cp \"%JADE_HOME%\\lib\\jade.jar\" jade.Boot -gui -agents \"main:MainAgent\""
        else
          "java -cp \"$\x7bJADE_HOME\x7d/lib/jade.jar\" jade.Boot -gui -agents \"main:MainAgent\""
      processNamePattern := "java.*jade.Boot"
      healthCheck := none }

/-- The command options read by `startServices` and `stopServices`. A flag
that is absent (`undefined`) is `false`. -/
structure Options where
  middleware : Bool
  ui : Bool
  jade : Bool
  deriving DecidableEq, Repr

/-- The object returned by `getServiceStatus`. -/
structure Status where
  middleware : Bool
  ui : Bool
  jade : Bool
  deriving DecidableEq, Repr

/-- State of a promise. -/
inductive PromiseState
  | pending
  | resolved
  | rejected (message : String)
  deriving DecidableEq, Repr

/-- One line of the report: a spinner update or a console line. -/
inductive Log
  | spinnerStart (text : String)
  | spinnerText (text : String)
  | spinnerInfo (text : String)
  | spinnerSucceed (text : String)
  | spinnerFail (text : String)
  | spinnerWarn (text : String)
  | consoleYellow (text : String)
  | consoleGreen (text : String)
  deriving DecidableEq, Repr

/-! ## Selection of the targeted services -/

/-- The list `services` built at the start of `startServices`. -/
def selectServices (options : Options) : List ServiceId :=
  let startMiddleware := options.middleware || (!options.ui && !options.jade)
  let startUi := options.ui || (!options.middleware && !options.jade)
  let startJade := options.jade || (!options.middleware && !options.ui)
  (if startMiddleware then [ServiceId.middleware] else []) ++
  (if startUi then [ServiceId.ui] else []) ++
  (if startJade then [ServiceId.jade] else [])

/-- The flags `stopMiddleware`, `stopUi`, `stopJade` of `stopServices`. -/
def stopTargets (options : Options) : ServiceId → Bool
  | .middleware => options.middleware || (!options.ui && !options.jade)
  | .ui => options.ui || (!options.middleware && !options.jade)
  | .jade => options.jade || (!options.middleware && !options.ui)

/-- The option flag that names a service. -/
def Options.names (options : Options) : ServiceId → Bool
  | .middleware => options.middleware
  | .ui => options.ui
  | .jade => options.jade

/-- The conditional `service === SERVICES.middleware ? status.middleware : ...`
used by `startServices`. -/
def isRunning (status : Status) : ServiceId → Bool
  | .middleware => status.middleware
  | .ui => status.ui
  | .jade => status.jade

/-! ## `startServices` -/

/-- State of `p.then(onResolved).catch(onRejected)` when neither callback
throws: the rejection of `p` is handled, so the chain never rejects. -/
def thenCatch : PromiseState → PromiseState
  | .pending => .pending
  | .resolved => .resolved
  | .rejected _ => .resolved

/-- State of `Promise.allSettled(ps)`: it waits for every promise and never
rejects. -/
def allSettled (ps : List PromiseState) : PromiseState :=
  if ps.any (fun p => p == .pending) then .pending else .resolved

/-- The variables shared by the settlement callbacks of `startServices`:
the report so far and the counter `startedCount`. -/
structure StartAcc where
  log : List Log
  startedCount : Nat
  deriving DecidableEq, Repr

/-- The callbacks attached to one launch: `.then` counts the success and,
when the count reaches the number of candidates, prints the summary and one
line per started service; `.catch` prints the failure with its reason. -/
def onSettled (env : Env) (status : Status) (services servicesToStart : List ServiceId)
    (launch : ServiceId → PromiseState) (acc : StartAcc) (service : ServiceId) : StartAcc :=
  match launch service with
  | .pending => acc
  | .resolved =>
    let startedCount := acc.startedCount + 1
    if startedCount = servicesToStart.length then
      { log := acc.log
          ++ [Log.spinnerSucceed ("Started " ++ toString startedCount ++ " service(s)")]
          ++ (services.filter (fun s => !isRunning status s && servicesToStart.contains s)).map
              (fun s => Log.consoleGreen ("✓ " ++ (SERVICES env s).name))
        startedCount := startedCount }
    else
      { acc with startedCount := startedCount }
  | .rejected message =>
    { acc with
      log := acc.log
        ++ [Log.spinnerFail ("Failed to start " ++ (SERVICES env service).name ++ ": " ++ message)] }

/-- What one call of `startServices` does: the report, the services for
which `startService` was called (in call order), the final value of
`startedCount`, and the state of the promise returned by the call. -/
structure StartRun where
  log : List Log
  launched : List ServiceId
  startedCount : Nat
  result : PromiseState
  deriving DecidableEq, Repr

/-- The list `servicesToStart`: the targeted services that the status does
not report as running. -/
def servicesToStart (options : Options) (status : Status) : List ServiceId :=
  (selectServices options).filter (fun s => !isRunning status s)

/-- The lines printed by the filter callback for the targeted services that
are running. -/
def alreadyRunningLines (env : Env) (options : Options) (status : Status) : List Log :=
  ((selectServices options).filter (isRunning status)).map
    (fun s => Log.consoleYellow ((SERVICES env s).name ++ " is already running"))

/-- The launch loop of `startServices` and the callbacks that run as the
launches settle: `startService` is called for every candidate in turn (each
call first sets the spinner text), then the callbacks of the launches run in
the order in which the launches settle. `settleTime s` is the instant at
which the launch of `s` settles; launches that settle at the same instant
run their callbacks in launch order. -/
def settleAll (env : Env) (options : Options) (status : Status)
    (launch : ServiceId → PromiseState) (settleTime : ServiceId → Nat) : StartAcc :=
  let services := selectServices options
  let toStart := servicesToStart options status
  let settleOrder := toStart.insertionSort (fun a b => settleTime a ≤ settleTime b)
  settleOrder.foldl (onSettled env status services toStart launch)
    { log := [Log.spinnerStart "Starting services..."] ++ alreadyRunningLines env options status
        ++ [Log.spinnerText ("Starting " ++ toString toStart.length ++ " service(s)...")]
        ++ toStart.map (fun s => Log.spinnerText ("Starting " ++ (SERVICES env s).name ++ "..."))
      startedCount := 0 }

/-- The function `startServices`. `status` is the value of
`await getServiceStatus()`; `launch s` is the final state of the promise
returned by `startService` for `s` (`pending` when it never settles). -/
def startServices (env : Env) (options : Options) (status : Status)
    (launch : ServiceId → PromiseState) (settleTime : ServiceId → Nat) : StartRun :=
  let toStart := servicesToStart options status
  if toStart.length = 0 then
    { log := [Log.spinnerStart "Starting services..."] ++ alreadyRunningLines env options status
        ++ [Log.spinnerInfo "All selected services are already running"]
      launched := []
      startedCount := 0
      result := .resolved }
  else
    let startupPromises := toStart.map (fun s => thenCatch (launch s))
    let acc := settleAll env options status launch settleTime
    match allSettled startupPromises with
    | .pending =>
      { log := acc.log, launched := toStart, startedCount := acc.startedCount
        result := .pending }
    | _ =>
      { log :=
          if acc.startedCount < toStart.length then
            acc.log ++ [Log.spinnerWarn ("Started " ++ toString acc.startedCount ++ "/"
              ++ toString toStart.length ++ " services")]
          else acc.log
        launched := toStart
        startedCount := acc.startedCount
        result := .resolved }

/-- An environment used to evaluate the definitions on concrete inputs: a
POSIX platform on which every directory exists. -/
def posixEnv : Env :=
  { platform := "linux"
    projectRoot := "/opt/voice-agent"
    pathJoin := fun a b => a ++ "/" ++ b
    existsSync := fun _ => true }

/-! ## Text operations used on the captured output -/

/-- The characters removed by `String.prototype.trim`: the white space and
line terminator code points of ECMAScript. -/
def isWhiteSpace (c : Char) : Bool :=
  let n := c.toNat
  n = 0x09 || n = 0x0A || n = 0x0B || n = 0x0C || n = 0x0D || n = 0x20 || n = 0xA0
    || n = 0x1680 || (0x2000 ≤ n && n ≤ 0x200A) || n = 0x2028 || n = 0x2029
    || n = 0x202F || n = 0x205F || n = 0x3000 || n = 0xFEFF

/-- The method `trim` on the characters of a string. -/
def trimChars (cs : List Char) : List Char :=
  (cs.dropWhile isWhiteSpace).rdropWhile isWhiteSpace

/-- The method `trim`. -/
def trim (s : String) : String := ⟨trimChars s.data⟩

/-- The method `toLowerCase`, on the letters A to Z. The mappings of
`toLowerCase` outside ASCII are not modelled: none of them yields one of the
letters of "error", the only text the result is searched for. -/
def toLowerCase (s : String) : String := ⟨s.data.map Char.toLower⟩

/-- The method `includes` on the characters of two strings. -/
def includesChars : List Char → List Char → Bool
  | [], sub => sub.isEmpty
  | c :: cs, sub => sub.isPrefixOf (c :: cs) || includesChars cs sub

/-- The method `includes`. -/
def includes (s sub : String) : Bool := includesChars s.data sub.data

/-- A JavaScript condition on a string or `null`: `null` and the empty string
are falsy. -/
def truthy : Option String → Bool
  | none => false
  | some s => s != ""

/-! ## `checkServiceHealth` and `startService` -/

/-- How the call of `http.get` ends: the response callback runs with a
status code, or the request emits `error`, or `http.get` itself throws (it
does for a URL that does not parse or whose protocol is not `http:`). -/
inductive HttpResult
  | response (statusCode : Nat)
  | error
  | threw (message : String)
  deriving DecidableEq, Repr

/-- The function `checkServiceHealth`: the value its promise settles with
once the request has ended. Without a health-check URL no request is made and
the value is `true`. An exception thrown by `http.get` inside the executor
rejects the promise. -/
def checkServiceHealth (service : Service) (http : HttpResult) : Except String Bool :=
  if !truthy service.healthCheck then
    .ok true
  else
    match http with
    | .response statusCode => .ok (decide (statusCode ≥ 200) && decide (statusCode < 400))
    | .error => .ok false
    | .threw message => .error message

/-- What can happen to a launch after `spawn`: the events delivered to the
handlers installed by `startService`. -/
inductive Event
  | spawnError (message : String)
  | stdoutData (data : String)
  | stderrData (data : String)
  | timeout
  | health (result : HttpResult)
  deriving DecidableEq, Repr

/-- State of the timer created by `setTimeout`. -/
inductive Timer
  | unset
  | armed (delayMs : Nat)
  | cleared
  | fired
  deriving DecidableEq, Repr

/-- The arguments of the call of `spawn`. -/
structure SpawnCall where
  shell : String
  args : List String
  cwd : String
  detached : Bool
  deriving DecidableEq, Repr

/-- State of one call of `startService`: the promise it returned, the call
of `spawn` it made, its timer, the variable `outputSeen`, whether a health
request is in flight, and how many health requests were issued. -/
structure LaunchState where
  promise : PromiseState
  spawned : Option SpawnCall
  timer : Timer
  outputSeen : Bool
  healthPending : Bool
  healthChecks : Nat
  deriving DecidableEq, Repr

/-- The call `resolve()`: settles the promise if it is still pending. -/
def LaunchState.resolve (s : LaunchState) : LaunchState :=
  match s.promise with
  | .pending => { s with promise := .resolved }
  | _ => s

/-- The call `reject(new Error(message))`: settles the promise if it is
still pending. -/
def LaunchState.reject (s : LaunchState) (message : String) : LaunchState :=
  match s.promise with
  | .pending => { s with promise := .rejected message }
  | _ => s

/-- The call `clearTimeout(timeout)`: a timer that has not fired will not. -/
def LaunchState.clearTimeout (s : LaunchState) : LaunchState :=
  match s.timer with
  | .armed _ => { s with timer := .cleared }
  | _ => s

/-- The callbacks `.then(isHealthy => ...)` and `.catch(() => resolve())`
attached to the promise of `checkServiceHealth` by the timeout handler. -/
def onHealth (s : LaunchState) : Except String Bool → LaunchState
  | .ok isHealthy =>
    if isHealthy then s.resolve else s.reject "Service started but health check failed"
  | .error _ => s.resolve

/-- The handlers installed by `startService`, run on one event. The timeout
handler runs only if the timer is still armed; the completion of a health
request is handled only while one is in flight. -/
def step (service : Service) (s : LaunchState) : Event → LaunchState
  | .spawnError message => s.reject ("Process error: " ++ message)
  | .timeout =>
    match s.timer with
    | .armed _ =>
      if truthy service.healthCheck then
        { s with timer := .fired, healthPending := true, healthChecks := s.healthChecks + 1 }
      else
        LaunchState.resolve { s with timer := .fired }
    | _ => s
  | .stdoutData _ =>
    if !s.outputSeen then
      LaunchState.resolve (LaunchState.clearTimeout { s with outputSeen := true })
    else s
  | .stderrData data =>
    let errorMsg := trim data
    if includes (toLowerCase errorMsg) "error" then
      s.reject errorMsg
    else if !s.outputSeen then
      LaunchState.resolve (LaunchState.clearTimeout { s with outputSeen := true })
    else s
  | .health result =>
    if s.healthPending then
      onHealth { s with healthPending := false } (checkServiceHealth service result)
    else s

/-- State of a launch right after `startService` has called `spawn`,
installed its handlers and set its timer of 2000 ms. -/
def afterSpawn (env : Env) (service : Service) : LaunchState :=
  let shell := if env.platform = "win32" then "cmd" else "bash"
  let shellFlag := if env.platform = "win32" then "/c" else "-c"
  { promise := .pending
    spawned := some
      { shell := shell, args := [shellFlag, service.startCmd], cwd := service.dir
        detached := true }
    timer := .armed 2000
    outputSeen := false
    healthPending := false
    healthChecks := 0 }

/-- The function `startService`, followed through a sequence of events. When
the directory of the service does not exist the promise is rejected at once
and nothing else is set up. -/
def startService (env : Env) (service : Service) (events : List Event) : LaunchState :=
  if !env.existsSync service.dir then
    { promise := .rejected ("Service directory not found: " ++ service.dir)
      spawned := none
      timer := .unset
      outputSeen := false
      healthPending := false
      healthChecks := 0 }
  else
    events.foldl (step service) (afterSpawn env service)

/-! ## The wording of the specification for the text of a chunk -/

/-- The text contains the word as a substring, each letter of the word in
either case (the word is given in lower case). -/
def ContainsAnyCase (text word : String) : Prop :=
  ∃ pre w post, text.data = pre ++ w ++ post
    ∧ List.Forall₂ (fun c letter => c = letter ∨ c = letter.toUpper) w word.data

/-- The text `t` is the text `s` without its leading and trailing white
space: `s` is `t` between two runs of white space, and `t` neither starts nor
ends with white space. -/
def IsTrimmed (t s : String) : Prop :=
  ∃ l r, s.data = l ++ t.data ++ r
    ∧ (∀ c ∈ l, isWhiteSpace c = true) ∧ (∀ c ∈ r, isWhiteSpace c = true)
    ∧ (∀ c, t.data.head? = some c → isWhiteSpace c = false)
    ∧ (∀ c, t.data.getLast? = some c → isWhiteSpace c = false)

/-! ## Liveness probes -/

/-- How the call `testServer.listen(port)` ends: the server emits
`listening`, or it emits `error` with an error code. -/
inductive BindResult
  | listening
  | error (code : String)
  deriving DecidableEq, Repr

/-- What one call of `isPortInUse` does: the value its promise settles with,
whether the test server was closed, and what it printed. -/
structure PortProbe where
  result : Except String Bool
  closed : Bool
  log : List Log

/-- The function `isPortInUse`. For a port that is not below 65536 the call
`testServer.listen(port)` throws inside the executor, which rejects the
promise with the range error of `listen` (named here by its code). Otherwise
`bind port` is the outcome of the attempt to listen on `port`. -/
def isPortInUse (port : Nat) (bind : Nat → BindResult) : PortProbe :=
  if 65536 ≤ port then
    { result := .error "ERR_SOCKET_BAD_PORT", closed := false, log := [] }
  else
    match bind port with
    | .error code =>
      if code = "EADDRINUSE" then
        { result := .ok true, closed := false, log := [] }
      else
        { result := .ok false, closed := false, log := [] }
    | .listening =>
      { result := .ok false, closed := true, log := [] }

/-- What `exec` passes to its callback: the error (`null` when the command
exits with code 0) and the captured standard output. -/
structure ExecResult where
  error : Option String
  stdout : String
  deriving DecidableEq, Repr

/-- What one call of `isProcessRunning` does: the value its promise settles
with, the command it ran, and what it printed. -/
structure ProcessProbe where
  result : Except String Bool
  cmd : String
  log : List Log

/-- The command built by `isProcessRunning` for a pattern. -/
def processQuery (env : Env) (pattern : String) : String :=
  if env.platform = "win32" then
    "tasklist /FI \"WINDOWTITLE eq *" ++ pattern ++ "*\" /NH"
  else
    "pgrep -f \"" ++ pattern ++ "\" || echo \"\""

/-- The function `isProcessRunning`. `exec cmd` is what the callback of
`exec` receives for the command `cmd`. -/
def isProcessRunning (env : Env) (pattern : String) (exec : String → ExecResult) :
    ProcessProbe :=
  let cmd := processQuery env pattern
  match (exec cmd).error with
  | some _ => { result := .ok false, cmd := cmd, log := [] }
  | none =>
    let output := trim (exec cmd).stdout
    if env.platform = "win32" then
      { result := .ok (includes output ".exe"), cmd := cmd, log := [] }
    else
      { result := .ok (output != ""), cmd := cmd, log := [] }

/-- A JavaScript condition on a port number or `null`: `null` and `0` are
falsy. -/
def truthyPort : Option Nat → Bool
  | none => false
  | some port => port != 0

/-- The function `getServiceStatus`: each `await` takes the value of a probe,
and would pass on its rejection. -/
def getServiceStatus (env : Env) (bind : Nat → BindResult) (exec : String → ExecResult) :
    Except String Status := do
  let middleware ←
    if truthyPort (SERVICES env .middleware).port then
      (isPortInUse ((SERVICES env .middleware).port.getD 0) bind).result
    else
      (isProcessRunning env (SERVICES env .middleware).processNamePattern exec).result
  let ui ←
    if truthyPort (SERVICES env .ui).port then
      (isPortInUse ((SERVICES env .ui).port.getD 0) bind).result
    else
      (isProcessRunning env (SERVICES env .ui).processNamePattern exec).result
  let jade ← (isProcessRunning env (SERVICES env .jade).processNamePattern exec).result
  pure { middleware := middleware, ui := ui, jade := jade }

/-! ## `stopServices` -/

/-- The terminate command that `stopServices` builds for a service. -/
def killCommand (env : Env) (s : ServiceId) : String :=
  if env.platform = "win32" then
    "taskkill /F /FI \"WINDOWTITLE eq *" ++ (SERVICES env s).processNamePattern ++ "*\" /T"
  else
    "pkill -f \"" ++ (SERVICES env s).processNamePattern ++ "\""

/-- The list `killCommands` built by `stopServices`. -/
def killCommands (env : Env) (options : Options) (status : Status) : List String :=
  (if stopTargets options .middleware && status.middleware then
      [killCommand env .middleware] else [])
  ++ (if stopTargets options .ui && status.ui then [killCommand env .ui] else [])
  ++ (if stopTargets options .jade && status.jade then [killCommand env .jade] else [])

/-- The promise created for one terminate command: the callback of `exec`
ignores the error and calls `resolve()`. -/
def killPromise : ExecResult → PromiseState
  | { error := some _, .. } => .resolved
  | { error := none, .. } => .resolved

/-- State of `Promise.all(ps)`: rejected if one of the promises is rejected,
pending if none is rejected and one is pending, resolved otherwise. -/
def promiseAll (ps : List PromiseState) : PromiseState :=
  match ps.find? (fun p => p != .pending && p != .resolved) with
  | some p => p
  | none => if ps.any (fun p => p == .pending) then .pending else .resolved

/-- The steps of `stopServices` that reach the operating system, in order. -/
inductive StopAction
  | getServiceStatus
  | exec (cmd : String)
  | killsSettled
  deriving DecidableEq, Repr

/-- What one call of `stopServices` does: the report, the commands passed
to `exec`, the steps taken in order, and the state of the promise returned by
the call. -/
structure StopRun where
  log : List Log
  commands : List String
  trace : List StopAction
  result : PromiseState
  deriving DecidableEq, Repr

/-- The function `stopServices`. `status` is the value of the first
`await getServiceStatus()`, `exec cmd` is what the callback of `exec`
receives for a terminate command, and `newStatus` is the value of the second
`await getServiceStatus()`. -/
def stopServices (env : Env) (options : Options) (status : Status)
    (exec : String → ExecResult) (newStatus : Status) : StopRun :=
  let stopMiddleware := stopTargets options .middleware
  let stopUi := stopTargets options .ui
  let stopJade := stopTargets options .jade
  let cmds := killCommands env options status
  if cmds.length = 0 then
    { log := [Log.spinnerStart "Stopping services...",
        Log.spinnerInfo "No running services to stop"]
      commands := []
      trace := [StopAction.getServiceStatus]
      result := .resolved }
  else
    let killPromises := cmds.map (fun cmd => killPromise (exec cmd))
    match promiseAll killPromises with
    | .pending =>
      { log := [Log.spinnerStart "Stopping services..."]
        commands := cmds
        trace := [StopAction.getServiceStatus] ++ cmds.map StopAction.exec
        result := .pending }
    | .rejected message =>
      { log := [Log.spinnerStart "Stopping services..."]
        commands := cmds
        trace := [StopAction.getServiceStatus] ++ cmds.map StopAction.exec
        result := .rejected message }
    | .resolved =>
      let allStopped := (!stopMiddleware || !newStatus.middleware)
        && (!stopUi || !newStatus.ui) && (!stopJade || !newStatus.jade)
      { log :=
          if allStopped then
            [Log.spinnerStart "Stopping services...", Log.spinnerSucceed "Services stopped"]
          else
            [Log.spinnerStart "Stopping services...",
              Log.spinnerWarn "Some services may still be running"]
            ++ (if stopMiddleware && newStatus.middleware then
                [Log.consoleYellow ((SERVICES env .middleware).name ++ " is still running")]
              else [])
            ++ (if stopUi && newStatus.ui then
                [Log.consoleYellow ((SERVICES env .ui).name ++ " is still running")] else [])
            ++ (if stopJade && newStatus.jade then
                [Log.consoleYellow ((SERVICES env .jade).name ++ " is still running")]
              else [])
        commands := cmds
        trace := [StopAction.getServiceStatus] ++ cmds.map StopAction.exec
          ++ [StopAction.killsSettled, StopAction.getServiceStatus]
        result := .resolved }

/-- The commands passed to `exec` in a sequence of steps, in order. -/
def execCommands (trace : List StopAction) : List String :=
  trace.filterMap fun a =>
    match a with
    | .exec cmd => some cmd
    | _ => none

/-- A status whose entries for the targeted services are those of `status`
and whose entries for the other services are those of `other`. -/
def onTargets (options : Options) (status other : Status) : Status :=
  { middleware := if stopTargets options .middleware then status.middleware else other.middleware
    ui := if stopTargets options .ui then status.ui else other.ui
    jade := if stopTargets options .jade then status.jade else other.jade }

/-- The registered services, in the order of the `SERVICES` table. -/
def registered : List ServiceId := [.middleware, .ui, .jade]

/-! ## The wording of the specification for the readiness race -/

/-- The outcome that an event gives to a launch that is still undecided.
`requested` tells whether the timer has already expired and issued the
health request. A spawn error gives Failed; a chunk on standard error that
contains "error" gives Failed with the trimmed chunk; any other chunk gives
Succeeded; the expiry of the timer of a service without health-check URL
gives Succeeded; the response to the health request gives Succeeded when its
status is in [200,400) and Failed otherwise; a health request that could not
be made because `http.get` threw gives Succeeded. -/
inductive Decides (service : Service) (requested : Bool) : Event → PromiseState → Prop
  | spawnError (message : String) :
    Decides service requested (.spawnError message) (.rejected ("Process error: " ++ message))
  | stdout (data : String) :
    Decides service requested (.stdoutData data) .resolved
  | stderrError (data : String) :
    ContainsAnyCase data "error" →
    Decides service requested (.stderrData data) (.rejected (trim data))
  | stderrOther (data : String) :
    ¬ ContainsAnyCase data "error" →
    Decides service requested (.stderrData data) .resolved
  | timeout :
    truthy service.healthCheck = false →
    Decides service requested .timeout .resolved
  | healthy (statusCode : Nat) :
    requested = true → 200 ≤ statusCode → statusCode < 400 →
    Decides service requested (.health (.response statusCode)) .resolved
  | unhealthy (statusCode : Nat) :
    requested = true → ¬ (200 ≤ statusCode ∧ statusCode < 400) →
    Decides service requested (.health (.response statusCode))
      (.rejected "Service started but health check failed")
  | healthThrew (message : String) :
    requested = true →
    Decides service requested (.health (.threw message)) .resolved

/-- The outcome of the readiness race on a sequence of events: the outcome
given by the first event that decides the launch, and undecided when there
is none. The events before the deciding one decide nothing: the expiry of
the timer of a service with a health-check URL only issues the health request
(once), and the completion of a health request that was never issued is
ignored. -/
inductive Race (service : Service) : Bool → List Event → PromiseState → Prop
  | undecided (requested : Bool) :
    Race service requested [] .pending
  | decided (requested : Bool) (e : Event) (later : List Event) (outcome : PromiseState) :
    Decides service requested e outcome →
    Race service requested (e :: later) outcome
  | request (later : List Event) (outcome : PromiseState) :
    truthy service.healthCheck = true →
    Race service true later outcome →
    Race service false (.timeout :: later) outcome
  | expiredAgain (later : List Event) (outcome : PromiseState) :
    Race service true later outcome →
    Race service true (.timeout :: later) outcome
  | unrequested (result : HttpResult) (later : List Event) (outcome : PromiseState) :
    Race service false later outcome →
    Race service false (.health result :: later) outcome

/-! ## `captureScreenshot` (`src/cli/lib/adb.js`) -/

/-- The method `endsWith`. -/
def endsWith (s suffix : String) : Bool := suffix.data.isSuffixOf s.data

/-- The constant `outputFile` of `captureScreenshot`: the file name with the
extension `.png` ensured. -/
def outputFile (filename : String) : String :=
  if endsWith filename ".png" then filename else filename ++ ".png"

/-- The function `captureScreenshot`: the command it passes to `exec`, or
nothing when `checkAdbAvailability` yields false. -/
def captureScreenshot (adbAvailable : Bool) (filename : String) : Option String :=
  if !adbAvailable then
    none
  else
    some ("adb shell screencap -p /sdcard/screenshot.png && adb pull /sdcard/screenshot.png \""
      ++ outputFile filename ++ "\" && adb shell rm /sdcard/screenshot.png")

/-! ## `getTimeDiff` (`src/cli/lib/monitor.js`) -/

/-- The function `getTimeDiff`. An instant is its number of milliseconds
since the epoch, the value of `new Date(...)` in a subtraction; `none` is a
timestamp that is absent (`null`). `Math.floor` of a quotient by a positive
number is the division of integers. -/
def getTimeDiff (timestamp : Option Int) (now : Int) : String :=
  match timestamp with
  | none => "Never"
  | some timestamp =>
    let diff := now - timestamp
    if diff < 1000 then "Just now"
    else if diff < 60000 then toString (diff / 1000) ++ "s ago"
    else if diff < 3600000 then toString (diff / 60000) ++ "m ago"
    else toString (diff / 3600000) ++ "h ago"

/-! ## The browser client (`src/voice-ui/script.js`) -/

/-- The constant `maxReconnectAttempts`. -/
def maxReconnectAttempts : Nat := 5

/-- What can happen to the WebSocket connection: the handlers `onopen`,
`onclose` and `onerror` run, or the constructor throws inside
`connectWebSocket`. -/
inductive WsEvent
  | opened
  | closed
  | errored
  | constructorThrew
  deriving DecidableEq, Repr

/-- The state touched by the connection handlers: the variable
`reconnectAttempts`, the number of reconnections scheduled with `setTimeout`
so far, the text of the connection status, and the toasts shown. -/
structure WsState where
  reconnectAttempts : Nat
  scheduled : Nat
  connectionStatus : String
  toasts : List String
  deriving DecidableEq, Repr

/-- The handlers of `connectWebSocket`, run on one event. -/
def wsStep (s : WsState) : WsEvent → WsState
  | .opened => { s with connectionStatus := "Connected", reconnectAttempts := 0 }
  | .closed =>
    if s.reconnectAttempts < maxReconnectAttempts then
      { s with
        connectionStatus := "Disconnected"
        reconnectAttempts := s.reconnectAttempts + 1
        scheduled := s.scheduled + 1 }
    else
      { s with
        connectionStatus := "Disconnected"
        toasts := s.toasts
          ++ ["Could not connect to server after multiple attempts. Please refresh the page."] }
  | .errored => { s with connectionStatus := "Connection Error" }
  | .constructorThrew =>
    if s.reconnectAttempts < maxReconnectAttempts then
      { s with
        connectionStatus := "Connection Error"
        scheduled := s.scheduled + 1
        reconnectAttempts := s.reconnectAttempts + 1 }
    else
      { s with connectionStatus := "Connection Error" }

/-- The state when the page is loaded: `reconnectAttempts` is 0 and nothing
is scheduled; the initial text of the connection status comes from the
page. -/
def wsInitial (connectionStatus : String) : WsState :=
  { reconnectAttempts := 0, scheduled := 0, connectionStatus := connectionStatus, toasts := [] }

/-- The connection state after a sequence of events. -/
def wsRun (connectionStatus : String) (events : List WsEvent) : WsState :=
  events.foldl wsStep (wsInitial connectionStatus)

/-- The parts of the page written by `sendCommandViaREST`: the status text,
the class list of the status light, the response text, the device status
text, and the text and colour of the toast. -/
structure Ui where
  statusText : String
  statusLight : List String
  responseText : String
  deviceStatusText : String
  toastText : String
  toastColor : String
  deriving DecidableEq, Repr

/-- The method `classList.remove`. -/
def classListRemove (classes tokens : List String) : List String :=
  classes.filter (fun c => !tokens.contains c)

/-- The method `classList.add`: a class that is present is not added again. -/
def classListAdd (classes : List String) (token : String) : List String :=
  if classes.contains token then classes else classes ++ [token]

/-- The function `updateStatus`. -/
def updateStatus (ui : Ui) (message : String) (type : Option String) : Ui :=
  let light := classListRemove ui.statusLight ["listening", "processing", "error"]
  { ui with
    statusText := message
    statusLight :=
      match type with
      | some t => if t != "" then classListAdd light t else light
      | none => light }

/-- The function `showToast`, without its timer. -/
def showToast (ui : Ui) (message : String) (type : String) : Ui :=
  { ui with
    toastText := message
    toastColor :=
      if type = "error" then "rgba(231, 76, 60, 0.9)"
      else if type = "success" then "rgba(46, 204, 113, 0.9)"
      else "rgba(52, 73, 94, 0.9)" }

/-- The expression `a || b` on a string that may be absent. -/
def orDefault (a : Option String) (b : String) : String :=
  match a with
  | some v => if v != "" then v else b
  | none => b

/-- How the `try` block of `sendCommandViaREST` goes: something in it throws
(the request fails, the body is not JSON), or the server answers with an OK
response carrying `response.agentResponse` and `directExecution.output`, or
with a response that is not OK carrying `error.message`. -/
inductive RestResult
  | threw (message : String)
  | ok (agentResponse : Option String) (directOutput : Option String)
  | notOk (errorMessage : Option String)
  deriving DecidableEq, Repr

/-- The `try` and `catch` blocks of `sendCommandViaREST`. The first 100
characters of the output stand for `substring(0, 100)`. -/
def restBody (ui : Ui) : RestResult → Ui
  | .ok agentResponse directOutput =>
    let ui1 := { ui with responseText := orDefault agentResponse "Command sent successfully" }
    if truthy directOutput then
      { ui1 with
        deviceStatusText := "Command executed: " ++ ((directOutput.getD "").take 100) }
    else ui1
  | .notOk errorMessage =>
    showToast
      (updateStatus
        { ui with
          responseText := "Error: " ++ orDefault errorMessage "Failed to process command" }
        "Error" (some "error"))
      (orDefault errorMessage "Error processing command") "error"
  | .threw message =>
    showToast
      (updateStatus { ui with responseText := "Error: " ++ message } "Error" (some "error"))
      "Network error. Please try again." "error"

/-- The function `sendCommandViaREST`: the `try` and `catch` blocks, then
the `finally` block. -/
def sendCommandViaREST (ui : Ui) (result : RestResult) : Ui :=
  updateStatus (restBody ui result) "Ready" (some "ready")

/-! ## Lemmas on the report of `startServices` -/

/-- Recognises the failure lines `Failed to start ...` of the spinner. -/
def isFailLine : Log → Bool
  | .spinnerFail _ => true
  | _ => false

/-- Recognises the yellow console lines (`... is already running`). -/
def isYellowLine : Log → Bool
  | .consoleYellow _ => true
  | _ => false

/-- The lines printed by the `.catch` callbacks of the launches of `l` that
failed, each with the name of the service and the reason of the failure. -/
def failureLines (env : Env) (launch : ServiceId → PromiseState) (l : List ServiceId) : List Log :=
  l.filterMap fun s =>
    match launch s with
    | .rejected message =>
      some (Log.spinnerFail ("Failed to start " ++ (SERVICES env s).name ++ ": " ++ message))
    | _ => none

/-- Whether a launch succeeded. -/
def succeeded (launch : ServiceId → PromiseState) (s : ServiceId) : Bool :=
  launch s == .resolved

/-- Whether a launch failed. -/
def failed (launch : ServiceId → PromiseState) (s : ServiceId) : Bool :=
  match launch s with
  | .rejected _ => true
  | _ => false

theorem selectServices_nodup (options : Options) : (selectServices options).Nodup := by
  rcases options with ⟨_ | _, _ | _, _ | _⟩ <;> decide

theorem mem_selectServices (options : Options) (s : ServiceId) :
    s ∈ selectServices options ↔ stopTargets options s = true := by
  rcases options with ⟨_ | _, _ | _, _ | _⟩ <;> cases s <;> decide

theorem servicesToStart_nodup (options : Options) (status : Status) :
    (servicesToStart options status).Nodup :=
  (selectServices_nodup options).filter _

theorem mem_servicesToStart (options : Options) (status : Status) (s : ServiceId) :
    s ∈ servicesToStart options status ↔ s ∈ selectServices options ∧ isRunning status s = false := by
  simp [servicesToStart, List.mem_filter]

theorem startServices_launched (env : Env) (options : Options) (status : Status)
    (launch : ServiceId → PromiseState) (settleTime : ServiceId → Nat) :
    (startServices env options status launch settleTime).launched
      = servicesToStart options status := by
  unfold startServices
  by_cases h : (servicesToStart options status).length = 0
  · simp only [h, if_true]
    exact (List.length_eq_zero.mp h).symm
  · simp only [h, if_false]
    split <;> rfl

theorem foldl_onSettled_startedCount (env : Env) (status : Status)
    (services toStart : List ServiceId) (launch : ServiceId → PromiseState)
    (l : List ServiceId) (acc : StartAcc) :
    (l.foldl (onSettled env status services toStart launch) acc).startedCount
      = acc.startedCount + (l.filter (succeeded launch)).length := by
  induction l generalizing acc with
  | nil => simp
  | cons s l ih =>
    rw [List.foldl_cons, ih]
    cases h : launch s with
    | pending => simp [onSettled, succeeded, h, List.filter_cons]
    | resolved =>
      simp only [onSettled, succeeded, h, List.filter_cons, beq_self_eq_true, if_true,
        List.length_cons]
      split <;> simp <;> omega
    | rejected m => simp [onSettled, succeeded, h, List.filter_cons]

theorem foldl_onSettled_failLines (env : Env) (status : Status)
    (services toStart : List ServiceId) (launch : ServiceId → PromiseState)
    (l : List ServiceId) (acc : StartAcc) :
    (l.foldl (onSettled env status services toStart launch) acc).log.filter isFailLine
      = acc.log.filter isFailLine ++ failureLines env launch l := by
  induction l generalizing acc with
  | nil => simp [failureLines]
  | cons s l ih =>
    rw [List.foldl_cons, ih]
    cases h : launch s with
    | pending => simp [onSettled, failureLines, h, List.filterMap_cons]
    | resolved =>
      simp only [onSettled, failureLines, h, List.filterMap_cons]
      split
      · simp [List.filter_append, isFailLine, List.filter_map, List.filter_eq_nil_iff]
      · simp
    | rejected m =>
      simp [onSettled, failureLines, h, List.filterMap_cons, List.filter_append, isFailLine]

theorem foldl_onSettled_yellowLines (env : Env) (status : Status)
    (services toStart : List ServiceId) (launch : ServiceId → PromiseState)
    (l : List ServiceId) (acc : StartAcc) :
    (l.foldl (onSettled env status services toStart launch) acc).log.filter isYellowLine
      = acc.log.filter isYellowLine := by
  induction l generalizing acc with
  | nil => simp
  | cons s l ih =>
    rw [List.foldl_cons, ih]
    cases h : launch s with
    | pending => simp [onSettled, h]
    | resolved =>
      simp only [onSettled, h]
      split
      · simp [List.filter_append, isYellowLine, List.filter_map, List.filter_eq_nil_iff]
      · simp
    | rejected m => simp [onSettled, h, List.filter_append, isYellowLine]

theorem foldl_onSettled_log_mono (env : Env) (status : Status)
    (services toStart : List ServiceId) (launch : ServiceId → PromiseState)
    (l : List ServiceId) (acc : StartAcc) (e : Log) (he : e ∈ acc.log) :
    e ∈ (l.foldl (onSettled env status services toStart launch) acc).log := by
  induction l generalizing acc with
  | nil => simpa using he
  | cons s l ih =>
    rw [List.foldl_cons]
    apply ih
    cases h : launch s with
    | pending => simpa [onSettled, h] using he
    | resolved =>
      simp only [onSettled, h]
      split
      · simp [he]
      · simpa using he
    | rejected m => simp [onSettled, h, he]

theorem foldl_onSettled_succeed_line (env : Env) (status : Status)
    (services toStart : List ServiceId) (launch : ServiceId → PromiseState)
    (l : List ServiceId) (acc : StartAcc)
    (hall : ∀ s ∈ l, launch s = .resolved) (hne : l ≠ [])
    (hcount : acc.startedCount + l.length = toStart.length) :
    Log.spinnerSucceed ("Started " ++ toString toStart.length ++ " service(s)")
      ∈ (l.foldl (onSettled env status services toStart launch) acc).log := by
  induction l generalizing acc with
  | nil => exact absurd rfl hne
  | cons s l ih =>
    rw [List.foldl_cons]
    have hs : launch s = .resolved := hall s (List.mem_cons_self _ _)
    by_cases hl : l = []
    · subst hl
      simp only [List.length_cons, List.length_nil, Nat.zero_add] at hcount
      simp [onSettled, hs, hcount]
    · apply ih _ (fun t ht => hall t (List.mem_cons_of_mem _ ht)) hl
      simp only [List.length_cons] at hcount
      simp only [onSettled, hs]
      split <;> simp <;> omega

theorem length_succeeded_add_failed (launch : ServiceId → PromiseState) (l : List ServiceId)
    (hsettled : ∀ s ∈ l, launch s ≠ .pending) :
    (l.filter (succeeded launch)).length + (l.filter (failed launch)).length = l.length := by
  induction l with
  | nil => rfl
  | cons s l ih =>
    have ih2 := ih (fun t ht => hsettled t (List.mem_cons_of_mem _ ht))
    have hs := hsettled s (List.mem_cons_self _ _)
    cases h : launch s with
    | pending => exact absurd h hs
    | resolved => simp [List.filter_cons, succeeded, failed, h]; omega
    | rejected m => simp [List.filter_cons, succeeded, failed, h]; omega

theorem failureLines_length (env : Env) (launch : ServiceId → PromiseState) (l : List ServiceId) :
    (failureLines env launch l).length = (l.filter (failed launch)).length := by
  induction l with
  | nil => rfl
  | cons s l ih =>
    cases h : launch s <;>
      simp [failureLines, failed, List.filterMap_cons, List.filter_cons, h] at ih ⊢ <;>
      exact ih

theorem allSettled_thenCatch (launch : ServiceId → PromiseState) (l : List ServiceId) :
    allSettled (l.map fun s => thenCatch (launch s))
      = if l.any (fun s => launch s == .pending) then .pending else .resolved := by
  unfold allSettled
  have h : (l.map fun s => thenCatch (launch s)).any (fun p => p == .pending)
      = l.any (fun s => launch s == .pending) := by
    induction l with
    | nil => rfl
    | cons s l ih =>
      simp only [List.map_cons, List.any_cons, ih]
      cases launch s <;> rfl
  rw [h]

theorem settleAll_startedCount (env : Env) (options : Options) (status : Status)
    (launch : ServiceId → PromiseState) (settleTime : ServiceId → Nat) :
    (settleAll env options status launch settleTime).startedCount
      = ((servicesToStart options status).filter (succeeded launch)).length := by
  unfold settleAll
  simp only [foldl_onSettled_startedCount, Nat.zero_add]
  exact ((List.perm_insertionSort _ _).filter _).length_eq

theorem settleAll_failLines (env : Env) (options : Options) (status : Status)
    (launch : ServiceId → PromiseState) (settleTime : ServiceId → Nat) :
    ((settleAll env options status launch settleTime).log.filter isFailLine).Perm
      (failureLines env launch (servicesToStart options status)) := by
  unfold settleAll
  simp only [foldl_onSettled_failLines]
  have h0 : ∀ l : List ServiceId, (l.map fun s =>
      Log.spinnerText ("Starting " ++ (SERVICES env s).name ++ "...")).filter isFailLine = [] := by
    intro l
    simp [List.filter_eq_nil_iff, isFailLine]
  have h1 : (alreadyRunningLines env options status).filter isFailLine = [] := by
    simp only [alreadyRunningLines, List.filter_eq_nil_iff, List.mem_map]
    rintro a ⟨x, _, rfl⟩
    simp [isFailLine]
  simp only [List.filter_append, h0, h1, List.filter_cons, isFailLine, List.filter_nil,
    List.append_nil, List.nil_append, Bool.false_eq_true, if_false]
  exact (List.perm_insertionSort _ _).filterMap _

theorem settleAll_yellowLines (env : Env) (options : Options) (status : Status)
    (launch : ServiceId → PromiseState) (settleTime : ServiceId → Nat) :
    (settleAll env options status launch settleTime).log.filter isYellowLine
      = alreadyRunningLines env options status := by
  unfold settleAll
  simp only [foldl_onSettled_yellowLines]
  have h0 : ∀ l : List ServiceId, (l.map fun s =>
      Log.spinnerText ("Starting " ++ (SERVICES env s).name ++ "...")).filter isYellowLine
        = [] := by
    intro l
    simp [List.filter_eq_nil_iff, isYellowLine]
  have h1 : (alreadyRunningLines env options status).filter isYellowLine
      = alreadyRunningLines env options status := by
    simp only [alreadyRunningLines, List.filter_eq_self, List.mem_map]
    rintro a ⟨x, _, rfl⟩
    rfl
  simp only [List.filter_append, h0, h1, List.filter_cons, isYellowLine, List.filter_nil,
    List.append_nil, List.nil_append, Bool.false_eq_true, if_false]

theorem startServices_yellowLines (env : Env) (options : Options) (status : Status)
    (launch : ServiceId → PromiseState) (settleTime : ServiceId → Nat) :
    (startServices env options status launch settleTime).log.filter isYellowLine
      = alreadyRunningLines env options status := by
  have h1 : (alreadyRunningLines env options status).filter isYellowLine
      = alreadyRunningLines env options status := by
    simp only [alreadyRunningLines, List.filter_eq_self, List.mem_map]
    rintro a ⟨x, _, rfl⟩
    rfl
  unfold startServices
  by_cases h : (servicesToStart options status).length = 0
  · simp only [h, if_true, List.filter_append, h1]
    simp [isYellowLine]
  · simp only [h, if_false]
    split
    · exact settleAll_yellowLines env options status launch settleTime
    · split
      · rw [List.filter_append, settleAll_yellowLines]
        simp [isYellowLine]
      · exact settleAll_yellowLines env options status launch settleTime

theorem startServices_startedCount (env : Env) (options : Options) (status : Status)
    (launch : ServiceId → PromiseState) (settleTime : ServiceId → Nat) :
    (startServices env options status launch settleTime).startedCount
      = ((servicesToStart options status).filter (succeeded launch)).length := by
  unfold startServices
  by_cases h : (servicesToStart options status).length = 0
  · simp only [h, if_true]
    rw [List.length_eq_zero.mp h]
    rfl
  · simp only [h, if_false]
    split <;> exact settleAll_startedCount env options status launch settleTime

theorem startServices_result (env : Env) (options : Options) (status : Status)
    (launch : ServiceId → PromiseState) (settleTime : ServiceId → Nat) :
    (startServices env options status launch settleTime).result
      = if (servicesToStart options status).any (fun s => launch s == .pending)
        then .pending else .resolved := by
  unfold startServices
  by_cases h : (servicesToStart options status).length = 0
  · simp only [h, if_true]
    rw [List.length_eq_zero.mp h]
    rfl
  · simp only [h, if_false]
    rw [allSettled_thenCatch]
    by_cases hp : (servicesToStart options status).any (fun s => launch s == .pending) = true
    · simp only [hp, if_true]
    · rw [Bool.not_eq_true] at hp
      simp only [hp, Bool.false_eq_true, if_false]

theorem startServices_failLines (env : Env) (options : Options) (status : Status)
    (launch : ServiceId → PromiseState) (settleTime : ServiceId → Nat) :
    ((startServices env options status launch settleTime).log.filter isFailLine).Perm
      (failureLines env launch (servicesToStart options status)) := by
  have h1 : (alreadyRunningLines env options status).filter isFailLine = [] := by
    simp only [alreadyRunningLines, List.filter_eq_nil_iff, List.mem_map]
    rintro a ⟨x, _, rfl⟩
    simp [isFailLine]
  unfold startServices
  by_cases h : (servicesToStart options status).length = 0
  · simp only [h, if_true, List.filter_append, h1]
    rw [List.length_eq_zero.mp h]
    simp [isFailLine, failureLines]
  · simp only [h, if_false]
    split
    · exact settleAll_failLines env options status launch settleTime
    · split
      · rw [List.filter_append]
        simpa [isFailLine] using settleAll_failLines env options status launch settleTime
      · exact settleAll_failLines env options status launch settleTime

theorem settleAll_succeed_line (env : Env) (options : Options) (status : Status)
    (launch : ServiceId → PromiseState) (settleTime : ServiceId → Nat)
    (hne : servicesToStart options status ≠ [])
    (hall : ∀ s ∈ servicesToStart options status, launch s = .resolved) :
    Log.spinnerSucceed
        ("Started " ++ toString (servicesToStart options status).length ++ " service(s)")
      ∈ (settleAll env options status launch settleTime).log := by
  unfold settleAll
  apply foldl_onSettled_succeed_line
  · intro s hs
    exact hall s ((List.perm_insertionSort _ _).mem_iff.mp hs)
  · intro hnil
    have hlen := List.length_insertionSort (fun a b => settleTime a ≤ settleTime b)
      (servicesToStart options status)
    rw [hnil] at hlen
    exact hne (List.length_eq_zero.mp hlen.symm)
  · simp [List.length_insertionSort]

theorem resolved_of_no_failure (launch : ServiceId → PromiseState) (l : List ServiceId)
    (hsettled : ∀ s ∈ l, launch s ≠ .pending)
    (hnone : (l.filter (failed launch)).length = 0) :
    ∀ s ∈ l, launch s = .resolved := by
  intro s hs
  have hnil := List.length_eq_zero.mp hnone
  rw [List.filter_eq_nil_iff] at hnil
  have h1 := hsettled s hs
  have h2 := hnil s hs
  cases h : launch s with
  | pending => exact absurd h h1
  | resolved => rfl
  | rejected m => simp [failed, h] at h2

theorem length_candidates_add_skipped (options : Options) (status : Status) :
    (servicesToStart options status).length
        + ((selectServices options).filter (isRunning status)).length
      = (selectServices options).length := by
  rcases options with ⟨_ | _, _ | _, _ | _⟩ <;> rcases status with ⟨_ | _, _ | _, _ | _⟩ <;> rfl

theorem any_pending_eq_false (launch : ServiceId → PromiseState) (l : List ServiceId)
    (hsettled : ∀ s ∈ l, launch s ≠ .pending) :
    l.any (fun s => launch s == .pending) = false := by
  rw [List.any_eq_false]
  intro s hs
  simpa using hsettled s hs

/-! ## The claims on `startServices` and `stopServices` -/

/-- C1: for every combination of the option flags, a service is targeted by
`startServices` exactly when it is named by a flag if at least one flag is
set, and every service is targeted when no flag is set; the targets are
listed without repetition, and `stopServices` targets exactly the same
services for the same options. -/
theorem selection_targets_named_or_all (options : Options) (s : ServiceId) :
    (s ∈ selectServices options ↔
      if options.middleware || options.ui || options.jade then options.names s = true
      else True)
    ∧ (selectServices options).Nodup
    ∧ (stopTargets options s = true ↔ s ∈ selectServices options) := by
  rcases options with ⟨_ | _, _ | _, _ | _⟩ <;> cases s <;> decide

/-- C2: `startServices` calls `startService` exactly once for each targeted
service whose status is not running and never for any other service, and it
prints the line `<name> is already running` exactly once for each targeted
service whose status is running and never for any other service. -/
theorem start_launches_exactly_not_running (env : Env) (options : Options) (status : Status)
    (launch : ServiceId → PromiseState) (settleTime : ServiceId → Nat) (s : ServiceId) :
    (startServices env options status launch settleTime).launched.count s
        = (if s ∈ selectServices options ∧ isRunning status s = false then 1 else 0)
    ∧ (startServices env options status launch settleTime).log.count
          (Log.consoleYellow ((SERVICES env s).name ++ " is already running"))
        = (if s ∈ selectServices options ∧ isRunning status s = true then 1 else 0) := by
  constructor
  · rw [startServices_launched]
    rcases options with ⟨_ | _, _ | _, _ | _⟩ <;> rcases status with ⟨_ | _, _ | _, _ | _⟩ <;>
      cases s <;> decide
  · have hcount : ∀ (l : List Log) (t : String),
        l.count (Log.consoleYellow t) = (l.filter isYellowLine).count (Log.consoleYellow t) := by
      intro l t
      rw [List.count_filter]
      rfl
    rw [hcount, startServices_yellowLines]
    rcases options with ⟨_ | _, _ | _, _ | _⟩ <;> rcases status with ⟨_ | _, _ | _, _ | _⟩ <;>
      cases s <;>
      simp [alreadyRunningLines, selectServices, isRunning, SERVICES, List.filter_cons]

/-- C3: when the status reports every targeted service as running,
`startServices` launches nothing, counts nothing as started, returns
normally, and its report is the start line, one `already running` line per
targeted service, and the information line
`All selected services are already running`: no failure and no warning. -/
theorem start_all_running_launches_nothing (env : Env) (options : Options) (status : Status)
    (launch : ServiceId → PromiseState) (settleTime : ServiceId → Nat)
    (hrunning : ∀ s ∈ selectServices options, isRunning status s = true) :
    (startServices env options status launch settleTime).launched = []
    ∧ (startServices env options status launch settleTime).startedCount = 0
    ∧ (startServices env options status launch settleTime).result = .resolved
    ∧ (startServices env options status launch settleTime).log
        = [Log.spinnerStart "Starting services..."]
          ++ (selectServices options).map
              (fun s => Log.consoleYellow ((SERVICES env s).name ++ " is already running"))
          ++ [Log.spinnerInfo "All selected services are already running"] := by
  have hnil : servicesToStart options status = [] := by
    simp only [servicesToStart, List.filter_eq_nil_iff]
    intro s hs
    simp [hrunning s hs]
  have hall : (selectServices options).filter (isRunning status) = selectServices options := by
    rw [List.filter_eq_self]
    exact hrunning
  simp [startServices, hnil, alreadyRunningLines, hall]

theorem start_all_running_launches_nothing_witness :
    (startServices posixEnv ⟨false, true, true⟩ ⟨false, true, true⟩
        (fun _ => .rejected "unused") (fun _ => 0)).launched = []
    ∧ (startServices posixEnv ⟨false, true, true⟩ ⟨false, true, true⟩
        (fun _ => .rejected "unused") (fun _ => 0)).startedCount = 0
    ∧ (startServices posixEnv ⟨false, true, true⟩ ⟨false, true, true⟩
        (fun _ => .rejected "unused") (fun _ => 0)).result = .resolved
    ∧ (startServices posixEnv ⟨false, true, true⟩ ⟨false, true, true⟩
        (fun _ => .rejected "unused") (fun _ => 0)).log
        = [Log.spinnerStart "Starting services..."]
          ++ (selectServices ⟨false, true, true⟩).map
              (fun s => Log.consoleYellow ((SERVICES posixEnv s).name ++ " is already running"))
          ++ [Log.spinnerInfo "All selected services are already running"] :=
  start_all_running_launches_nothing posixEnv ⟨false, true, true⟩ ⟨false, true, true⟩
    (fun _ => .rejected "unused") (fun _ => 0) (by decide)

/-- C4: whatever the outcomes of the launches and the order in which they
settle, `startServices` calls `startService` for every candidate, the promise
it returns is never rejected (it is resolved once every launch has settled
and pending until then), and `startedCount` ends as the number of candidates
whose launch succeeded. -/
theorem start_isolates_launch_failures (env : Env) (options : Options) (status : Status)
    (launch : ServiceId → PromiseState) (settleTime : ServiceId → Nat) :
    (startServices env options status launch settleTime).launched
        = servicesToStart options status
    ∧ (∀ message, (startServices env options status launch settleTime).result
        ≠ .rejected message)
    ∧ (startServices env options status launch settleTime).result
        = (if (servicesToStart options status).any (fun s => launch s == .pending)
            then .pending else .resolved)
    ∧ (startServices env options status launch settleTime).startedCount
        = ((servicesToStart options status).filter (fun s => launch s == .resolved)).length := by
  refine ⟨startServices_launched _ _ _ _ _, ?_, startServices_result _ _ _ _ _,
    startServices_startedCount _ _ _ _ _⟩
  intro message
  rw [startServices_result]
  split <;> simp

/-- C5: when every launch settles, the report of `startServices` holds one
`Failed to start <name>: <reason>` line per candidate whose launch failed
(so their number is the failed count), one `<name> is already running` line
per targeted service that was running (the skipped count), and one summary
that carries the succeeded count: `Started n service(s)` when every
candidate succeeded, `Started k/n services` when some failed, and
`All selected services are already running` when there was no candidate;
succeeded + failed is the number of candidates and candidates + skipped is
the number of targeted services. -/
theorem start_report_counts (env : Env) (options : Options) (status : Status)
    (launch : ServiceId → PromiseState) (settleTime : ServiceId → Nat)
    (hsettled : ∀ s ∈ servicesToStart options status, launch s ≠ .pending) :
    ((startServices env options status launch settleTime).log.filter isFailLine).Perm
        (failureLines env launch (servicesToStart options status))
    ∧ ((startServices env options status launch settleTime).log.filter isFailLine).length
        = ((servicesToStart options status).filter (failed launch)).length
    ∧ (startServices env options status launch settleTime).log.filter isYellowLine
        = ((selectServices options).filter (isRunning status)).map
            (fun s => Log.consoleYellow ((SERVICES env s).name ++ " is already running"))
    ∧ (if servicesToStart options status = [] then
        Log.spinnerInfo "All selected services are already running"
          ∈ (startServices env options status launch settleTime).log
      else if ((servicesToStart options status).filter (failed launch)).length = 0 then
        Log.spinnerSucceed ("Started "
            ++ toString ((servicesToStart options status).filter (succeeded launch)).length
            ++ " service(s)")
          ∈ (startServices env options status launch settleTime).log
      else
        Log.spinnerWarn ("Started "
            ++ toString ((servicesToStart options status).filter (succeeded launch)).length
            ++ "/" ++ toString (servicesToStart options status).length ++ " services")
          ∈ (startServices env options status launch settleTime).log)
    ∧ ((servicesToStart options status).filter (succeeded launch)).length
        + ((servicesToStart options status).filter (failed launch)).length
        = (servicesToStart options status).length
    ∧ (servicesToStart options status).length
        + ((selectServices options).filter (isRunning status)).length
        = (selectServices options).length := by
  have hsum := length_succeeded_add_failed launch _ hsettled
  refine ⟨startServices_failLines _ _ _ _ _, ?_, startServices_yellowLines _ _ _ _ _, ?_,
    hsum, length_candidates_add_skipped _ _⟩
  · rw [(startServices_failLines env options status launch settleTime).length_eq,
      failureLines_length]
  · by_cases hnil : servicesToStart options status = []
    · simp [startServices, hnil]
    · have hlen : ¬ (servicesToStart options status).length = 0 := fun h =>
        hnil (List.length_eq_zero.mp h)
      have hcount := settleAll_startedCount env options status launch settleTime
      have hlog : (startServices env options status launch settleTime).log
          = if (settleAll env options status launch settleTime).startedCount
                < (servicesToStart options status).length then
              (settleAll env options status launch settleTime).log
                ++ [Log.spinnerWarn ("Started "
                  ++ toString (settleAll env options status launch settleTime).startedCount
                  ++ "/" ++ toString (servicesToStart options status).length ++ " services")]
            else (settleAll env options status launch settleTime).log := by
        unfold startServices
        simp only [hlen, if_false]
        rw [allSettled_thenCatch, any_pending_eq_false launch _ hsettled]
        simp only [Bool.false_eq_true, if_false]
      rw [if_neg hnil, hlog, hcount]
      by_cases hfail : ((servicesToStart options status).filter (failed launch)).length = 0
      · rw [if_pos hfail]
        have heq : ((servicesToStart options status).filter (succeeded launch)).length
            = (servicesToStart options status).length := by omega
        rw [heq, if_neg (Nat.lt_irrefl _)]
        exact settleAll_succeed_line env options status launch settleTime hnil
          (resolved_of_no_failure launch _ hsettled hfail)
      · rw [if_neg hfail]
        have hlt : ((servicesToStart options status).filter (succeeded launch)).length
            < (servicesToStart options status).length := by omega
        rw [if_pos hlt]
        simp

theorem start_report_counts_witness :
    ((startServices posixEnv ⟨false, false, false⟩ ⟨true, false, false⟩
          (fun s => if s = .ui then .rejected "spawn bash ENOENT" else .resolved)
          (fun s => if s = .ui then 7 else 3)).log.filter isFailLine)
        = [Log.spinnerFail "Failed to start Voice UI: spawn bash ENOENT"]
    ∧ Log.spinnerWarn "Started 1/2 services"
        ∈ (startServices posixEnv ⟨false, false, false⟩ ⟨true, false, false⟩
          (fun s => if s = .ui then .rejected "spawn bash ENOENT" else .resolved)
          (fun s => if s = .ui then 7 else 3)).log
    ∧ ((startServices posixEnv ⟨false, false, false⟩ ⟨true, false, false⟩
          (fun s => if s = .ui then .rejected "spawn bash ENOENT" else .resolved)
          (fun s => if s = .ui then 7 else 3)).log.filter isFailLine).length
        = ((servicesToStart ⟨false, false, false⟩ ⟨true, false, false⟩).filter
            (failed (fun s => if s = .ui then .rejected "spawn bash ENOENT" else .resolved))).length :=
  ⟨by decide, by decide,
    (start_report_counts posixEnv ⟨false, false, false⟩ ⟨true, false, false⟩
      (fun s => if s = .ui then .rejected "spawn bash ENOENT" else .resolved)
      (fun s => if s = .ui then 7 else 3) (by decide)).2.1⟩

/-! ## Lemmas on the text operations -/

theorem includesChars_iff (s sub : List Char) : includesChars s sub = true ↔ sub <:+: s := by
  induction s with
  | nil => simp [includesChars]
  | cons c cs ih =>
    simp only [includesChars, Bool.or_eq_true, List.isPrefixOf_iff_prefix, ih,
      List.infix_cons_iff]

theorem toLower_eq_letter (c l : Char) (hl : l = 'e' ∨ l = 'r' ∨ l = 'o') :
    c.toLower = l ↔ c = l ∨ c = l.toUpper := by
  have hc := Char.ofNat_toNat c
  by_cases h : c.toNat ≥ 65 ∧ c.toNat ≤ 90
  · obtain ⟨h1, h2⟩ := h
    rw [← hc]
    generalize c.toNat = n at h1 h2
    interval_cases n <;> rcases hl with rfl | rfl | rfl <;> decide
  · have hlow : c.toLower = c := by
      unfold Char.toLower
      simp only [h, if_false]
    rw [hlow]
    constructor
    · exact Or.inl
    · rintro (h1 | h1)
      · exact h1
      · exfalso
        apply h
        rcases hl with rfl | rfl | rfl <;> subst h1 <;> decide

theorem map_toLower_eq_iff (w ls : List Char) (hls : ∀ l ∈ ls, l = 'e' ∨ l = 'r' ∨ l = 'o') :
    w.map Char.toLower = ls
      ↔ List.Forall₂ (fun c letter => c = letter ∨ c = letter.toUpper) w ls := by
  induction w generalizing ls with
  | nil => cases ls <;> simp
  | cons c w ih =>
    cases ls with
    | nil => simp
    | cons l ls =>
      simp only [List.map_cons, List.cons.injEq, List.forall₂_cons]
      rw [toLower_eq_letter c l (hls l (List.mem_cons_self _ _)),
        ih ls (fun x hx => hls x (List.mem_cons_of_mem _ hx))]

theorem infix_dropWhile (p : Char → Bool) (c : Char) (w cs : List Char)
    (hc : p c = false) (h : (c :: w) <:+: cs) : (c :: w) <:+: cs.dropWhile p := by
  induction cs with
  | nil => simp at h
  | cons d cs ih =>
    by_cases hd : p d = true
    · rw [List.dropWhile_cons_of_pos hd]
      rcases List.infix_cons_iff.mp h with hpre | hin
      · obtain ⟨t, ht⟩ := hpre
        simp only [List.cons_append, List.cons.injEq] at ht
        rw [ht.1, hd] at hc
        exact absurd hc (by simp)
      · exact ih hin
    · rw [List.dropWhile_cons_of_neg hd]
      exact h

theorem infix_rdropWhile (p : Char → Bool) (c : Char) (w v cs : List Char)
    (hw : w.reverse = c :: v) (hc : p c = false) (h : w <:+: cs) :
    w <:+: cs.rdropWhile p := by
  unfold List.rdropWhile
  rw [← List.reverse_infix, List.reverse_reverse, hw]
  apply infix_dropWhile p c v _ hc
  rw [← hw, List.reverse_infix]
  exact h

theorem trimChars_within (cs : List Char) : trimChars cs <:+: cs :=
  (List.rdropWhile_prefix (l := cs.dropWhile isWhiteSpace) isWhiteSpace).isInfix.trans
    (List.dropWhile_suffix isWhiteSpace).isInfix

theorem error_word_ends (w : List Char)
    (hw : List.Forall₂ (fun c letter => c = letter ∨ c = letter.toUpper) w "error".data) :
    ∃ c v d u, w = c :: v ∧ isWhiteSpace c = false ∧ w.reverse = d :: u
      ∧ isWhiteSpace d = false := by
  have hdata : "error".data = ['e', 'r', 'r', 'o', 'r'] := rfl
  rw [hdata] at hw
  simp only [List.forall₂_cons_right_iff, List.forall₂_nil_right_iff] at hw
  obtain ⟨c1, w1, h1, ⟨c2, w2, h2, ⟨c3, w3, h3, ⟨c4, w4, h4, ⟨c5, w5, h5, rfl, rfl⟩, rfl⟩,
    rfl⟩, rfl⟩, rfl⟩ := hw
  refine ⟨c1, [c2, c3, c4, c5], c5, [c4, c3, c2, c1], rfl, ?_, by simp, ?_⟩
  · rcases h1 with rfl | rfl <;> decide
  · rcases h5 with rfl | rfl <;> decide

theorem includes_error_iff (chunk : String) :
    includes (toLowerCase (trim chunk)) "error" = true ↔ ContainsAnyCase chunk "error" := by
  have hletters : ∀ l ∈ "error".data, l = 'e' ∨ l = 'r' ∨ l = 'o' := by decide
  simp only [includes, toLowerCase, trim, includesChars_iff]
  constructor
  · rintro ⟨l1, l3, h⟩
    obtain ⟨ab, b3, hab, hmap, h3⟩ := List.map_eq_append_iff.mp h.symm
    obtain ⟨a, w, rfl, h1, hw⟩ := List.map_eq_append_iff.mp hmap
    obtain ⟨x, y, hxy⟩ := trimChars_within chunk.data
    refine ⟨x ++ a, w, b3 ++ y, ?_, (map_toLower_eq_iff w _ hletters).mp hw⟩
    rw [← hxy, hab]
    simp
  · rintro ⟨pre, w, post, hdata, hw⟩
    obtain ⟨c, v, d, u, hcv, hc, hdu, hd⟩ := error_word_ends w hw
    have hin : w <:+: chunk.data := ⟨pre, post, hdata.symm⟩
    have h1 : w <:+: chunk.data.dropWhile isWhiteSpace := by
      rw [hcv] at hin ⊢
      exact infix_dropWhile _ c v _ hc hin
    have h2 : w <:+: trimChars chunk.data := infix_rdropWhile _ d w u _ hdu hd h1
    have hmap : w.map Char.toLower = ['e', 'r', 'r', 'o', 'r'] :=
      (map_toLower_eq_iff w _ hletters).mpr hw
    rw [← hmap]
    obtain ⟨x, y, hxy⟩ := h2
    exact ⟨x.map Char.toLower, y.map Char.toLower, by rw [← hxy]; simp⟩

theorem rdropWhile_append_rtakeWhile (p : Char → Bool) (l : List Char) :
    l.rdropWhile p ++ l.rtakeWhile p = l := by
  unfold List.rdropWhile List.rtakeWhile
  rw [← List.reverse_append, List.takeWhile_append_dropWhile, List.reverse_reverse]

theorem trim_isTrimmed (chunk : String) : IsTrimmed (trim chunk) chunk := by
  refine ⟨chunk.data.takeWhile isWhiteSpace,
    (chunk.data.dropWhile isWhiteSpace).rtakeWhile isWhiteSpace, ?_, ?_, ?_, ?_, ?_⟩
  · simp only [trim, trimChars]
    rw [List.append_assoc, rdropWhile_append_rtakeWhile, List.takeWhile_append_dropWhile]
  · intro c hc
    exact List.mem_takeWhile_imp hc
  · intro c hc
    exact List.mem_rtakeWhile_imp hc
  · intro c hc
    simp only [trim, trimChars] at hc
    have hsplit := rdropWhile_append_rtakeWhile isWhiteSpace
      (chunk.data.dropWhile isWhiteSpace)
    have hhead := List.head?_dropWhile_not isWhiteSpace chunk.data
    rw [← hsplit] at hhead
    cases hd : (chunk.data.dropWhile isWhiteSpace).rdropWhile isWhiteSpace with
    | nil => rw [hd] at hc; simp at hc
    | cons x xs =>
      rw [hd] at hc hhead
      simp only [List.head?_cons, Option.some.injEq] at hc
      simp only [List.cons_append, List.head?_cons] at hhead
      rw [← hc]
      exact hhead
  · intro c hc
    simp only [trim, trimChars] at hc
    have hne : (chunk.data.dropWhile isWhiteSpace).rdropWhile isWhiteSpace ≠ [] := by
      intro h
      rw [h] at hc
      simp at hc
    have hlast := List.rdropWhile_last_not isWhiteSpace _ hne
    rw [List.getLast?_eq_getLast _ hne, Option.some.injEq] at hc
    rw [← hc]
    simpa using hlast

/-! ## Lemmas on `startService` -/

theorem startService_of_dir (env : Env) (service : Service) (events : List Event)
    (hdir : env.existsSync service.dir = true) :
    startService env service events = events.foldl (step service) (afterSpawn env service) := by
  simp [startService, hdir]

theorem step_settled (service : Service) (s : LaunchState) (e : Event)
    (hs : s.promise ≠ .pending) : (step service s e).promise = s.promise := by
  have hres : ∀ t : LaunchState, t.promise = s.promise → t.resolve.promise = s.promise := by
    intro t ht
    unfold LaunchState.resolve
    rw [ht]
    cases h : s.promise with
    | pending => exact absurd h hs
    | resolved => simp [ht, h]
    | rejected m => simp [ht, h]
  have hrej : ∀ (t : LaunchState) (m : String), t.promise = s.promise →
      (t.reject m).promise = s.promise := by
    intro t m ht
    unfold LaunchState.reject
    rw [ht]
    cases h : s.promise with
    | pending => exact absurd h hs
    | resolved => simp [ht, h]
    | rejected m => simp [ht, h]
  have hclr : ∀ t : LaunchState, t.clearTimeout.promise = t.promise := by
    intro t
    unfold LaunchState.clearTimeout
    split <;> rfl
  cases e with
  | spawnError message => exact hrej s _ rfl
  | timeout =>
    simp only [step]
    split
    · split
      · rfl
      · exact hres _ rfl
    · rfl
  | stdoutData data =>
    simp only [step]
    split
    · exact hres _ (hclr _)
    · rfl
  | stderrData data =>
    simp only [step]
    split
    · exact hrej s _ rfl
    · split
      · exact hres _ (hclr _)
      · rfl
  | health result =>
    simp only [step]
    split
    · unfold onHealth
      split
      · split
        · exact hres _ rfl
        · exact hrej _ _ rfl
      · exact hres _ rfl
    · rfl

theorem foldl_step_settled (service : Service) (events : List Event) (s : LaunchState)
    (hs : s.promise ≠ .pending) : (events.foldl (step service) s).promise = s.promise := by
  induction events generalizing s with
  | nil => rfl
  | cons e es ih =>
    rw [List.foldl_cons, ih _ (by rw [step_settled service s e hs]; exact hs),
      step_settled service s e hs]

theorem step_after_output (service : Service) (s : LaunchState) (e : Event)
    (hp : s.promise = .resolved) (ht : s.timer = .cleared) (ho : s.outputSeen = true)
    (hh : s.healthPending = false) : step service s e = s := by
  cases e with
  | spawnError message => simp [step, LaunchState.reject, hp]
  | timeout => simp [step, ht]
  | stdoutData data => simp [step, ho]
  | stderrData data =>
    simp only [step, ho]
    split
    · simp [LaunchState.reject, hp]
    · simp
  | health result => simp [step, hh]

theorem foldl_step_after_output (service : Service) (events : List Event) (s : LaunchState)
    (hp : s.promise = .resolved) (ht : s.timer = .cleared) (ho : s.outputSeen = true)
    (hh : s.healthPending = false) : events.foldl (step service) s = s := by
  induction events with
  | nil => rfl
  | cons e es ih => rw [List.foldl_cons, step_after_output service s e hp ht ho hh, ih]

theorem foldl_step_health_idle (service : Service) (results : List HttpResult)
    (s : LaunchState) (hh : s.healthPending = false) :
    (results.map Event.health).foldl (step service) s = s := by
  induction results with
  | nil => rfl
  | cons r rs ih =>
    rw [List.map_cons, List.foldl_cons]
    have : step service s (.health r) = s := by simp [step, hh]
    rw [this, ih]

/-! ## The claims on `startService` -/

/-- A connection error of the health request also ends the launch in a
failure: `checkServiceHealth` turns the error into the value `false`, so the
`.catch` branch of the timeout handler does not run. -/
theorem connection_error_fails_launch :
    (startService posixEnv (SERVICES posixEnv .middleware)
        [.timeout, .health .error]).promise
      = .rejected "Service started but health check failed" := by
  decide

/-- When `http.get` throws, the promise of `checkServiceHealth` is rejected
and the `.catch` branch of the timeout handler resolves the launch. -/
theorem health_throw_resolves_launch :
    (startService posixEnv (SERVICES posixEnv .middleware)
        [.timeout, .health (.threw "Invalid URL")]).promise = .resolved := by
  decide

/-- C6 (counterexample): the middleware service has a health-check URL; when
its launch stays silent until the timeout and the health check is answered
with status 503, `startService` reports a failure, not a success. -/
theorem unhealthy_response_fails_launch :
    (startService posixEnv (SERVICES posixEnv .middleware)
        [.timeout, .health (.response 503)]).promise ≠ .resolved
    ∧ (startService posixEnv (SERVICES posixEnv .middleware)
        [.timeout, .health (.response 503)]).promise
        = .rejected "Service started but health check failed" := by
  decide

/-- C6 (amended): for a service with a health-check URL whose launch is
silent until the timeout, the timeout issues one health request and leaves
the launch undecided; a response with status in [200,400) then gives
Succeeded and a response with any other status gives Failed with the reason
`Service started but health check failed`. -/
theorem health_status_decides_silent_launch (env : Env) (service : Service)
    (hdir : env.existsSync service.dir = true) (hurl : truthy service.healthCheck = true)
    (statusCode : Nat) :
    (startService env service [.timeout]).promise = .pending
    ∧ (startService env service [.timeout]).healthChecks = 1
    ∧ (startService env service [.timeout, .health (.response statusCode)]).promise
        = (if 200 ≤ statusCode ∧ statusCode < 400 then .resolved
          else .rejected "Service started but health check failed") := by
  simp only [startService_of_dir env service _ hdir, List.foldl_cons, List.foldl_nil]
  refine ⟨?_, ?_, ?_⟩
  · simp [step, afterSpawn, hurl]
  · simp [step, afterSpawn, hurl]
  · by_cases h : 200 ≤ statusCode ∧ statusCode < 400
    · simp [step, afterSpawn, hurl, onHealth, checkServiceHealth, LaunchState.resolve, h]
    · simp [step, afterSpawn, hurl, onHealth, checkServiceHealth, LaunchState.reject, h]

theorem health_status_decides_silent_launch_witness :
    posixEnv.existsSync (SERVICES posixEnv .ui).dir = true
    ∧ truthy (SERVICES posixEnv .ui).healthCheck = true
    ∧ (startService posixEnv (SERVICES posixEnv .ui) [.timeout]).promise = .pending
    ∧ (startService posixEnv (SERVICES posixEnv .ui) [.timeout]).healthChecks = 1
    ∧ (startService posixEnv (SERVICES posixEnv .ui)
        [.timeout, .health (.response 404)]).promise
        = (if 200 ≤ 404 ∧ 404 < 400 then .resolved
          else .rejected "Service started but health check failed") :=
  ⟨rfl, by decide,
    health_status_decides_silent_launch posixEnv (SERVICES posixEnv .ui) rfl (by decide) 404⟩

/-- C7: for a service without a health-check URL whose process emits no
output and no spawn error, the launch is undecided, with its timer of
2000 ms armed, as long as the timer has not expired, and the expiry of the
timer gives Succeeded. -/
theorem silent_launch_succeeds_at_timeout (env : Env) (service : Service)
    (hdir : env.existsSync service.dir = true) (hnone : truthy service.healthCheck = false)
    (results : List HttpResult) :
    (startService env service (results.map Event.health)).promise = .pending
    ∧ (startService env service (results.map Event.health)).timer = .armed 2000
    ∧ (startService env service (results.map Event.health ++ [.timeout])).promise
        = .resolved := by
  simp only [startService_of_dir env service _ hdir, List.foldl_append,
    foldl_step_health_idle service results (afterSpawn env service) rfl, List.foldl_cons,
    List.foldl_nil]
  refine ⟨rfl, rfl, ?_⟩
  simp [step, afterSpawn, hnone, LaunchState.resolve]

theorem silent_launch_succeeds_at_timeout_witness :
    posixEnv.existsSync (SERVICES posixEnv .jade).dir = true
    ∧ truthy (SERVICES posixEnv .jade).healthCheck = false
    ∧ (startService posixEnv (SERVICES posixEnv .jade) []).promise = .pending
    ∧ (startService posixEnv (SERVICES posixEnv .jade) []).timer = .armed 2000
    ∧ (startService posixEnv (SERVICES posixEnv .jade) [.timeout]).promise = .resolved :=
  ⟨rfl, by decide,
    silent_launch_succeeds_at_timeout posixEnv (SERVICES posixEnv .jade) rfl (by decide) []⟩

/-- C8: when the first event of a launch is a chunk on standard error,
`startService` reports Failed, with the trimmed text of the chunk as message,
if the chunk contains "error" in any letter case, and Succeeded otherwise;
the trimmed text is the chunk without its leading and trailing white space.
First bytes `Error: EADDRINUSE` give Failed and `Listening on port 3000`
give Succeeded. -/
theorem first_stderr_chunk_outcome (env : Env) (service : Service)
    (hdir : env.existsSync service.dir = true) (chunk : String) :
    ((ContainsAnyCase chunk "error"
        ∧ (startService env service [.stderrData chunk]).promise = .rejected (trim chunk))
      ∨ (¬ ContainsAnyCase chunk "error"
        ∧ (startService env service [.stderrData chunk]).promise = .resolved))
    ∧ IsTrimmed (trim chunk) chunk
    ∧ (startService posixEnv (SERVICES posixEnv .middleware)
        [.stderrData "Error: EADDRINUSE"]).promise = .rejected "Error: EADDRINUSE"
    ∧ (startService posixEnv (SERVICES posixEnv .middleware)
        [.stderrData "Listening on port 3000"]).promise = .resolved := by
  refine ⟨?_, trim_isTrimmed chunk, by decide, by decide⟩
  simp only [startService_of_dir env service _ hdir, List.foldl_cons, List.foldl_nil]
  by_cases h : ContainsAnyCase chunk "error"
  · left
    refine ⟨h, ?_⟩
    simp [step, (includes_error_iff chunk).mpr h, LaunchState.reject, afterSpawn]
  · right
    refine ⟨h, ?_⟩
    have hinc : includes (toLowerCase (trim chunk)) "error" = false := by
      rw [← Bool.not_eq_true, includes_error_iff]
      exact h
    simp [step, hinc, LaunchState.resolve, LaunchState.clearTimeout, afterSpawn]

theorem first_stderr_chunk_outcome_witness :
    posixEnv.existsSync (SERVICES posixEnv .ui).dir = true
    ∧ ((ContainsAnyCase "  npm ERR! Fatal ERROR\n" "error"
        ∧ (startService posixEnv (SERVICES posixEnv .ui)
            [.stderrData "  npm ERR! Fatal ERROR\n"]).promise
          = .rejected (trim "  npm ERR! Fatal ERROR\n"))
      ∨ (¬ ContainsAnyCase "  npm ERR! Fatal ERROR\n" "error"
        ∧ (startService posixEnv (SERVICES posixEnv .ui)
            [.stderrData "  npm ERR! Fatal ERROR\n"]).promise = .resolved))
    ∧ IsTrimmed (trim "  npm ERR! Fatal ERROR\n") "  npm ERR! Fatal ERROR\n" :=
  ⟨rfl,
    (first_stderr_chunk_outcome posixEnv (SERVICES posixEnv .ui) rfl
      "  npm ERR! Fatal ERROR\n").1,
    (first_stderr_chunk_outcome posixEnv (SERVICES posixEnv .ui) rfl
      "  npm ERR! Fatal ERROR\n").2.1⟩

/-- C9: when the first event of a launch is a chunk on standard output, or a
chunk on standard error that does not contain "error" in any letter case,
`startService` reports Succeeded and clears its timer; whatever events
follow, the state of the launch does not change any more: the timer never
fires and no health request is issued. -/
theorem first_output_cancels_timeout (env : Env) (service : Service)
    (hdir : env.existsSync service.dir = true) (first : Event) (rest : List Event)
    (hfirst : (∃ data, first = .stdoutData data)
      ∨ (∃ data, first = .stderrData data ∧ ¬ ContainsAnyCase data "error")) :
    (startService env service [first]).promise = .resolved
    ∧ (startService env service [first]).timer = .cleared
    ∧ (startService env service [first]).healthChecks = 0
    ∧ (startService env service [first]).healthPending = false
    ∧ startService env service (first :: rest) = startService env service [first] := by
  have hstep : (step service (afterSpawn env service) first).promise = .resolved
      ∧ (step service (afterSpawn env service) first).timer = .cleared
      ∧ (step service (afterSpawn env service) first).healthChecks = 0
      ∧ (step service (afterSpawn env service) first).healthPending = false
      ∧ (step service (afterSpawn env service) first).outputSeen = true := by
    rcases hfirst with ⟨data, rfl⟩ | ⟨data, rfl, hno⟩
    · simp [step, LaunchState.resolve, LaunchState.clearTimeout, afterSpawn]
    · have hinc : includes (toLowerCase (trim data)) "error" = false := by
        rw [← Bool.not_eq_true, includes_error_iff]
        exact hno
      simp [step, hinc, LaunchState.resolve, LaunchState.clearTimeout, afterSpawn]
  simp only [startService_of_dir env service _ hdir, List.foldl_cons, List.foldl_nil]
  obtain ⟨h1, h2, h3, h4, h5⟩ := hstep
  exact ⟨h1, h2, h3, h4, foldl_step_after_output service rest _ h1 h2 h5 h4⟩

theorem first_output_cancels_timeout_witness :
    posixEnv.existsSync (SERVICES posixEnv .middleware).dir = true
    ∧ (startService posixEnv (SERVICES posixEnv .middleware)
        [.stdoutData "Server listening on port 3000"]).promise = .resolved
    ∧ (startService posixEnv (SERVICES posixEnv .middleware)
        [.stdoutData "Server listening on port 3000"]).timer = .cleared
    ∧ (startService posixEnv (SERVICES posixEnv .middleware)
        [.stdoutData "Server listening on port 3000"]).healthChecks = 0
    ∧ (startService posixEnv (SERVICES posixEnv .middleware)
        [.stdoutData "Server listening on port 3000"]).healthPending = false
    ∧ startService posixEnv (SERVICES posixEnv .middleware)
        (.stdoutData "Server listening on port 3000" :: [.timeout, .health .error])
      = startService posixEnv (SERVICES posixEnv .middleware)
        [.stdoutData "Server listening on port 3000"] :=
  ⟨rfl, first_output_cancels_timeout posixEnv (SERVICES posixEnv .middleware) rfl
    (.stdoutData "Server listening on port 3000") [.timeout, .health .error]
    (Or.inl ⟨_, rfl⟩)⟩

/-- C10: when the first event of a launch is the error event of the spawned
process, `startService` reports Failed at once with the reason
`Process error: ` followed by the text of the error, for every service and
every error, and no later event changes this outcome. -/
theorem spawn_error_fails_launch (env : Env) (service : Service)
    (hdir : env.existsSync service.dir = true) (message : String) (rest : List Event) :
    (startService env service [.spawnError message]).promise
        = .rejected ("Process error: " ++ message)
    ∧ (startService env service (.spawnError message :: rest)).promise
        = .rejected ("Process error: " ++ message) := by
  have hstep : (step service (afterSpawn env service) (.spawnError message)).promise
      = .rejected ("Process error: " ++ message) := by
    simp [step, LaunchState.reject, afterSpawn]
  simp only [startService_of_dir env service _ hdir, List.foldl_cons, List.foldl_nil]
  refine ⟨hstep, ?_⟩
  rw [foldl_step_settled service rest _ (by rw [hstep]; simp), hstep]

theorem spawn_error_fails_launch_witness :
    posixEnv.existsSync (SERVICES posixEnv .jade).dir = true
    ∧ (startService posixEnv (SERVICES posixEnv .jade)
        [.spawnError "spawn bash ENOENT"]).promise
        = .rejected ("Process error: " ++ "spawn bash ENOENT")
    ∧ (startService posixEnv (SERVICES posixEnv .jade)
        (.spawnError "spawn bash ENOENT" :: [.stdoutData "ready", .timeout])).promise
        = .rejected ("Process error: " ++ "spawn bash ENOENT") :=
  ⟨rfl, spawn_error_fails_launch posixEnv (SERVICES posixEnv .jade) rfl "spawn bash ENOENT"
    [.stdoutData "ready", .timeout]⟩

/-! ## Lemmas on the readiness race -/

theorem decides_step (service : Service) (requested : Bool) (s : LaunchState) (e : Event)
    (outcome : PromiseState) (hdec : Decides service requested e outcome)
    (hp : s.promise = .pending) (ho : s.outputSeen = false)
    (hreq : requested = true → s.healthPending = true ∧ truthy service.healthCheck = true)
    (harm : requested = false → ∃ d, s.timer = .armed d) :
    (step service s e).promise = outcome := by
  have hclr : ∀ t : LaunchState, t.clearTimeout.promise = t.promise := by
    intro t
    unfold LaunchState.clearTimeout
    split <;> rfl
  cases hdec with
  | spawnError message => simp [step, LaunchState.reject, hp]
  | stdout data =>
    simp only [step, ho, Bool.not_false, if_true]
    unfold LaunchState.resolve
    rw [hclr]
    simp [hp]
  | stderrError data h =>
    simp [step, (includes_error_iff data).mpr h, LaunchState.reject, hp]
  | stderrOther data h =>
    have hinc : includes (toLowerCase (trim data)) "error" = false := by
      rw [← Bool.not_eq_true, includes_error_iff]
      exact h
    simp only [step, hinc, ho, Bool.not_false, if_true, Bool.false_eq_true, if_false]
    unfold LaunchState.resolve
    rw [hclr]
    simp [hp]
  | timeout hnone =>
    cases requested with
    | true =>
      have := (hreq rfl).2
      rw [hnone] at this
      exact absurd this (by simp)
    | false =>
      obtain ⟨d, hd⟩ := harm rfl
      simp [step, hd, hnone, LaunchState.resolve, hp]
  | healthy statusCode hr h1 h2 =>
    obtain ⟨hpend, hurl⟩ := hreq hr
    simp [step, hpend, onHealth, checkServiceHealth, hurl, h1, h2, LaunchState.resolve, hp]
  | unhealthy statusCode hr hbad =>
    obtain ⟨hpend, hurl⟩ := hreq hr
    rw [not_and] at hbad
    by_cases h1 : 200 ≤ statusCode
    · have h2 := hbad h1
      simp [step, hpend, onHealth, checkServiceHealth, hurl, h1, h2, LaunchState.reject, hp]
    · simp [step, hpend, onHealth, checkServiceHealth, hurl, h1, LaunchState.reject, hp]
  | healthThrew message hr =>
    obtain ⟨hpend, hurl⟩ := hreq hr
    simp [step, hpend, onHealth, checkServiceHealth, hurl, LaunchState.resolve, hp]

theorem race_sound (service : Service) (requested : Bool) (events : List Event)
    (outcome : PromiseState) (hrace : Race service requested events outcome) :
    ∀ s : LaunchState, s.promise = .pending → s.outputSeen = false →
      (requested = true →
        s.healthPending = true ∧ truthy service.healthCheck = true ∧ s.timer = .fired) →
      (requested = false → s.healthPending = false ∧ ∃ d, s.timer = .armed d) →
      (events.foldl (step service) s).promise = outcome := by
  induction hrace with
  | undecided requested =>
    intro s hp _ _ _
    exact hp
  | decided requested e later outcome hdec =>
    intro s hp ho hreq harm
    have hstep := decides_step service requested s e outcome hdec hp ho
      (fun h => ⟨(hreq h).1, (hreq h).2.1⟩) (fun h => (harm h).2)
    have hsettled : outcome ≠ .pending := by
      cases hdec <;> simp
    rw [List.foldl_cons, foldl_step_settled service later _ (by rw [hstep]; exact hsettled),
      hstep]
  | request later outcome hurl _ ih =>
    intro s hp ho _ harm
    obtain ⟨_, d, hd⟩ := harm rfl
    rw [List.foldl_cons]
    apply ih
    · simp [step, hd, hurl, hp]
    · simp [step, hd, hurl, ho]
    · intro _
      simp [step, hd, hurl]
    · intro h
      simp at h
  | expiredAgain later outcome _ ih =>
    intro s hp ho hreq harm
    obtain ⟨_, _, hfired⟩ := hreq rfl
    have hstay : step service s .timeout = s := by simp [step, hfired]
    rw [List.foldl_cons, hstay]
    exact ih s hp ho hreq harm
  | unrequested result later outcome _ ih =>
    intro s hp ho hreq harm
    obtain ⟨hidle, _⟩ := harm rfl
    have hstay : step service s (.health result) = s := by simp [step, hidle]
    rw [List.foldl_cons, hstay]
    exact ih s hp ho hreq harm

theorem race_total (service : Service) (events : List Event)
    (hnoerr : Event.health .error ∉ events) :
    ∀ requested : Bool, (requested = true → truthy service.healthCheck = true) →
      ∃ outcome, Race service requested events outcome := by
  induction events with
  | nil =>
    intro r _
    exact ⟨.pending, .undecided r⟩
  | cons e rest ih =>
    have hrest : Event.health .error ∉ rest := fun h => hnoerr (List.mem_cons_of_mem _ h)
    have he : e ≠ Event.health .error := fun h => hnoerr (h ▸ List.mem_cons_self _ _)
    intro r hr
    cases e with
    | spawnError m => exact ⟨_, .decided r _ rest _ (.spawnError m)⟩
    | stdoutData d => exact ⟨_, .decided r _ rest _ (.stdout d)⟩
    | stderrData d =>
      by_cases h : ContainsAnyCase d "error"
      · exact ⟨_, .decided r _ rest _ (.stderrError d h)⟩
      · exact ⟨_, .decided r _ rest _ (.stderrOther d h)⟩
    | timeout =>
      by_cases hurl : truthy service.healthCheck = true
      · obtain ⟨o, ho⟩ := ih hrest true (fun _ => hurl)
        cases r with
        | true => exact ⟨o, .expiredAgain rest o ho⟩
        | false => exact ⟨o, .request rest o hurl ho⟩
      · exact ⟨_, .decided r _ rest _ (.timeout (by simpa using hurl))⟩
    | health result =>
      cases r with
      | false =>
        obtain ⟨o, ho⟩ := ih hrest false (by simp)
        exact ⟨o, .unrequested result rest o ho⟩
      | true =>
        cases result with
        | response code =>
          by_cases h : 200 ≤ code ∧ code < 400
          · exact ⟨_, .decided true _ rest _ (.healthy code rfl h.1 h.2)⟩
          · exact ⟨_, .decided true _ rest _ (.unhealthy code rfl h)⟩
        | error => exact absurd rfl he
        | threw m => exact ⟨_, .decided true _ rest _ (.healthThrew m rfl)⟩

/-! ## The claims on the launch of a service (continued) -/

/-- C11: for every service whose directory does not exist, `startService`
reports Failed with the reason `Service directory not found: ` followed by
the directory; whatever events are offered, no process is spawned, no timer
is set, and no health request is issued. -/
theorem missing_directory_fails_without_spawn (env : Env) (service : Service)
    (events : List Event) (hmissing : env.existsSync service.dir = false) :
    (startService env service events).promise
        = .rejected ("Service directory not found: " ++ service.dir)
    ∧ (startService env service events).spawned = none
    ∧ (startService env service events).timer = .unset
    ∧ (startService env service events).healthChecks = 0
    ∧ (startService env service events).healthPending = false := by
  simp [startService, hmissing]

theorem missing_directory_fails_without_spawn_witness :
    (startService { posixEnv with existsSync := fun _ => false }
        (SERVICES posixEnv .jade) [.timeout, .stdoutData "ready"]).promise
        = .rejected ("Service directory not found: " ++ (SERVICES posixEnv .jade).dir)
    ∧ (startService { posixEnv with existsSync := fun _ => false }
        (SERVICES posixEnv .jade) [.timeout, .stdoutData "ready"]).spawned = none
    ∧ (startService { posixEnv with existsSync := fun _ => false }
        (SERVICES posixEnv .jade) [.timeout, .stdoutData "ready"]).timer = .unset
    ∧ (startService { posixEnv with existsSync := fun _ => false }
        (SERVICES posixEnv .jade) [.timeout, .stdoutData "ready"]).healthChecks = 0
    ∧ (startService { posixEnv with existsSync := fun _ => false }
        (SERVICES posixEnv .jade) [.timeout, .stdoutData "ready"]).healthPending = false :=
  missing_directory_fails_without_spawn { posixEnv with existsSync := fun _ => false }
    (SERVICES posixEnv .jade) [.timeout, .stdoutData "ready"] rfl

/-- C12 (counterexample): for the middleware service the timer expires
first in both sequences and the health request is answered with status 200
in both, yet the launch succeeds in the first and fails in the second: the
chunk on standard error that arrives after the expiry of the timer, before
the answer to the health request, decides the outcome. -/
theorem event_after_timeout_changes_outcome :
    (startService posixEnv (SERVICES posixEnv .middleware)
        [.timeout, .health (.response 200)]).promise = .resolved
    ∧ (startService posixEnv (SERVICES posixEnv .middleware)
        [.timeout, .stderrData "Error: listen EADDRINUSE", .health (.response 200)]).promise
        = .rejected "Error: listen EADDRINUSE" := by
  decide

/-- C12 (amended): for every sequence of launch events, the outcome of
`startService` is the outcome of the readiness race: the one given by the
first event that decides the launch, whatever events follow it, and
undecided when no event decides. The deciding events are a spawn error, any
chunk of output, the expiry of the timer for a service without health-check
URL, and the completion of the health request issued at the expiry of the
timer; the expiry of the timer of a service with a health-check URL only
issues the request. The race has such an outcome for every sequence in which
no health request ends in a connection error. -/
theorem launch_outcome_is_race_outcome (env : Env) (service : Service)
    (hdir : env.existsSync service.dir = true) (events : List Event) :
    (∀ outcome, Race service false events outcome →
      (startService env service events).promise = outcome)
    ∧ (Event.health .error ∉ events → ∃ outcome, Race service false events outcome) := by
  refine ⟨?_, fun hnoerr => race_total service events hnoerr false (by simp)⟩
  intro outcome hrace
  rw [startService_of_dir env service _ hdir]
  exact race_sound service false events outcome hrace (afterSpawn env service) rfl rfl
    (by simp) (fun _ => ⟨rfl, 2000, rfl⟩)

theorem launch_outcome_is_race_outcome_witness :
    posixEnv.existsSync (SERVICES posixEnv .middleware).dir = true
    ∧ Race (SERVICES posixEnv .middleware) false
        [.timeout, .stdoutData "Server listening", .health (.response 503), .timeout]
        .resolved
    ∧ (startService posixEnv (SERVICES posixEnv .middleware)
        [.timeout, .stdoutData "Server listening", .health (.response 503),
          .timeout]).promise = .resolved :=
  ⟨rfl,
    .request _ _ (by decide) (.decided true _ _ _ (.stdout "Server listening")),
    (launch_outcome_is_race_outcome posixEnv (SERVICES posixEnv .middleware) rfl
      [.timeout, .stdoutData "Server listening", .health (.response 503), .timeout]).1
      .resolved
      (.request _ _ (by decide) (.decided true _ _ _ (.stdout "Server listening")))⟩

/-! ## Lemmas on the probes and on `stopServices` -/

theorem trimChars_eq_nil_iff (cs : List Char) :
    trimChars cs = [] ↔ ∀ c ∈ cs, isWhiteSpace c = true := by
  unfold trimChars
  rw [List.rdropWhile_eq_nil_iff]
  constructor
  · intro h
    have h2 : (cs.dropWhile isWhiteSpace).dropWhile isWhiteSpace = [] :=
      List.dropWhile_eq_nil_iff.mpr h
    rw [List.dropWhile_idempotent] at h2
    exact List.dropWhile_eq_nil_iff.mp h2
  · intro h c hc
    exact h c ((List.dropWhile_suffix isWhiteSpace).subset hc)

theorem trim_nonempty_eq_any (out : String) :
    (trim out != "") = out.data.any (fun c => !isWhiteSpace c) := by
  have hne : (trim out != "") = !decide (trimChars out.data = []) := by
    unfold trim
    cases h : trimChars out.data with
    | nil => rfl
    | cons c cs =>
      simp only [bne, reduceCtorEq, decide_False, Bool.not_false, Bool.not_eq_true']
      exact beq_false_of_ne (fun hc => by
        have := congrArg String.data hc
        simp at this)
  rw [hne, Bool.eq_iff_iff]
  simp only [Bool.not_eq_true', decide_eq_false_iff_not, trimChars_eq_nil_iff,
    List.any_eq_true, not_forall, Bool.not_eq_true]
  constructor
  · rintro ⟨c, hc, h⟩
    exact ⟨c, hc, by simpa using h⟩
  · rintro ⟨c, hc, h⟩
    exact ⟨c, hc, by simpa using h⟩

theorem includes_trim_exe (out : String) :
    includes (trim out) ".exe" = includes out ".exe" := by
  rw [Bool.eq_iff_iff]
  simp only [includes, trim, includesChars_iff]
  constructor
  · intro h
    exact h.trans (trimChars_within out.data)
  · intro h
    have h1 : ['.', 'e', 'x', 'e'] <:+: out.data.dropWhile isWhiteSpace :=
      infix_dropWhile _ '.' ['e', 'x', 'e'] _ (by decide) h
    exact infix_rdropWhile _ 'e' ['.', 'e', 'x', 'e'] ['x', 'e', '.'] _ rfl (by decide) h1

theorem killPromise_resolved (r : ExecResult) : killPromise r = .resolved := by
  rcases r with ⟨_ | _, _⟩ <;> rfl

theorem promiseAll_kills (exec : String → ExecResult) (cmds : List String) :
    promiseAll (cmds.map fun cmd => killPromise (exec cmd)) = .resolved := by
  have hall : (cmds.map fun cmd => killPromise (exec cmd))
      = List.replicate cmds.length PromiseState.resolved := by
    induction cmds with
    | nil => rfl
    | cons c cs ih => simp [killPromise_resolved, List.replicate_succ, ih]
  rw [hall]
  unfold promiseAll
  induction cmds.length with
  | zero => rfl
  | succ k ih =>
    simp only [List.replicate_succ, List.find?_cons, List.any_cons]
    simp

/-- A run of `stopServices` that issues at least one terminate command: the
commands are run, the status is probed again once they have all completed,
and the report names the targeted services that the second status reports as
running. -/
theorem stopServices_log_issued (env : Env) (options : Options) (status : Status)
    (exec : String → ExecResult) (newStatus : Status)
    (hissued : killCommands env options status ≠ []) :
    stopServices env options status exec newStatus
      = { log :=
            if (registered.filter
                (fun s => stopTargets options s && isRunning newStatus s)) = [] then
              [Log.spinnerStart "Stopping services...", Log.spinnerSucceed "Services stopped"]
            else
              [Log.spinnerStart "Stopping services...",
                Log.spinnerWarn "Some services may still be running"]
              ++ (registered.filter
                  (fun s => stopTargets options s && isRunning newStatus s)).map
                (fun s => Log.consoleYellow ((SERVICES env s).name ++ " is still running"))
          commands := killCommands env options status
          trace := [StopAction.getServiceStatus]
            ++ (killCommands env options status).map StopAction.exec
            ++ [StopAction.killsSettled, StopAction.getServiceStatus]
          result := .resolved } := by
  have hlen : ¬ (killCommands env options status).length = 0 := fun h =>
    hissued (List.length_eq_zero.mp h)
  unfold stopServices
  simp only [hlen, if_false, promiseAll_kills]
  congr 1
  cases h1 : stopTargets options .middleware <;> cases h2 : stopTargets options .ui <;>
    cases h3 : stopTargets options .jade <;>
    rcases newStatus with ⟨_ | _, _ | _, _ | _⟩ <;>
    simp [registered, isRunning, h1, h2, h3, List.filter_cons]

theorem killCommands_eq (env : Env) (options : Options) (status : Status) :
    killCommands env options status
      = (registered.filter (fun s => stopTargets options s && isRunning status s)).map
          (killCommand env) := by
  cases h1 : stopTargets options .middleware <;> cases h2 : stopTargets options .ui <;>
    cases h3 : stopTargets options .jade <;>
    rcases status with ⟨_ | _, _ | _, _ | _⟩ <;>
    simp [killCommands, registered, isRunning, h1, h2, h3, List.filter_cons]

theorem stopServices_commands (env : Env) (options : Options) (status : Status)
    (exec : String → ExecResult) (newStatus : Status) :
    (stopServices env options status exec newStatus).commands
      = killCommands env options status := by
  by_cases h : killCommands env options status = []
  · simp [stopServices, h]
  · rw [stopServices_log_issued env options status exec newStatus h]

theorem killCommand_injective (env : Env) (s t : ServiceId)
    (h : killCommand env s = killCommand env t) : s = t := by
  by_cases hw : env.platform = "win32" <;> cases s <;> cases t <;>
    first
    | rfl
    | (exfalso; simp [killCommand, hw, SERVICES] at h)

theorem isPortInUse_result (port : Nat) (bind : Nat → BindResult) (hport : port < 65536) :
    (isPortInUse port bind).result = .ok (decide (bind port = .error "EADDRINUSE")) := by
  unfold isPortInUse
  rw [if_neg (Nat.not_le.mpr hport)]
  cases h : bind port with
  | listening => simp
  | error code =>
    by_cases hc : code = "EADDRINUSE"
    · simp [hc]
    · simp [hc]

theorem isPortInUse_closed (port : Nat) (bind : Nat → BindResult) (hport : port < 65536) :
    (isPortInUse port bind).closed = decide (bind port = .listening) := by
  unfold isPortInUse
  rw [if_neg (Nat.not_le.mpr hport)]
  cases h : bind port with
  | listening => simp
  | error code =>
    by_cases hc : code = "EADDRINUSE"
    · simp [hc]
    · simp [hc]

theorem isProcessRunning_result (env : Env) (pattern : String) (exec : String → ExecResult) :
    (isProcessRunning env pattern exec).result
      = .ok (match (exec (processQuery env pattern)).error with
        | some _ => false
        | none =>
          if env.platform = "win32" then
            includes (exec (processQuery env pattern)).stdout ".exe"
          else trim (exec (processQuery env pattern)).stdout != "") := by
  unfold isProcessRunning
  cases h : (exec (processQuery env pattern)).error with
  | some e => simp [h]
  | none =>
    by_cases hw : env.platform = "win32"
    · simp [h, hw, includes_trim_exe]
    · simp [h, hw]

/-! ## The claims on the probes -/

/-- C13 (counterexample): for the numbers 65536 and 70000, which are not
below 65536, `listen` throws inside the executor and the promise of
`isPortInUse` is rejected, whatever the operating system would answer. -/
theorem out_of_range_port_rejects :
    (isPortInUse 65536 (fun _ => .listening)).result = .error "ERR_SOCKET_BAD_PORT"
    ∧ (isPortInUse 70000 (fun _ => .error "EADDRINUSE")).result
      = .error "ERR_SOCKET_BAD_PORT" := by
  exact ⟨rfl, rfl⟩

/-- C13 (amended): for every port from 0 to 65535 and every outcome of the
attempt to listen, `isPortInUse` does not reject and yields true exactly
when the attempt fails with the code `EADDRINUSE`: a successful attempt
yields false, and then the test server is closed, and a failure with any
other code yields false. -/
theorem port_probe_true_iff_address_in_use (port : Nat) (bind : Nat → BindResult)
    (hport : port < 65536) :
    (isPortInUse port bind).result = .ok (decide (bind port = .error "EADDRINUSE"))
    ∧ (isPortInUse port bind).closed = decide (bind port = .listening) :=
  ⟨isPortInUse_result port bind hport, isPortInUse_closed port bind hport⟩

theorem port_probe_true_iff_address_in_use_witness :
    (isPortInUse 65535 (fun p => if p = 65535 then .error "EADDRINUSE" else .listening)).result
      = .ok (decide ((fun p => if p = 65535 then BindResult.error "EADDRINUSE"
          else BindResult.listening) 65535 = .error "EADDRINUSE"))
    ∧ (isPortInUse 65535
        (fun p => if p = 65535 then .error "EADDRINUSE" else .listening)).closed
      = decide ((fun p => if p = 65535 then BindResult.error "EADDRINUSE"
          else BindResult.listening) 65535 = .listening) :=
  port_probe_true_iff_address_in_use 65535
    (fun p => if p = 65535 then .error "EADDRINUSE" else .listening) (by decide)

/-- C14: `getServiceStatus` never rejects and returns a status with the three
entries `middleware`, `ui` and `jade`: the first is the value of the port
probe on 3000, the second the value of the port probe on 8080, the third the
value of the process probe for the pattern of JADE. Each probe value is
unchanged when every other answer of the operating system is replaced by the
answer to its own question, so each entry depends on its own probe only. -/
theorem status_entries_follow_own_probe (env : Env) (bind : Nat → BindResult)
    (exec : String → ExecResult) :
    ∃ st, getServiceStatus env bind exec = .ok st
      ∧ (isPortInUse 3000 bind).result = .ok st.middleware
      ∧ (isPortInUse 8080 bind).result = .ok st.ui
      ∧ (isProcessRunning env "java.*jade.Boot" exec).result = .ok st.jade
      ∧ (isPortInUse 3000 (fun _ => bind 3000)).result = .ok st.middleware
      ∧ (isPortInUse 8080 (fun _ => bind 8080)).result = .ok st.ui
      ∧ (isProcessRunning env "java.*jade.Boot"
          (fun _ => exec (processQuery env "java.*jade.Boot"))).result = .ok st.jade := by
  obtain ⟨b1, h1⟩ : ∃ b, (isPortInUse 3000 bind).result = .ok b :=
    ⟨_, isPortInUse_result 3000 bind (by decide)⟩
  obtain ⟨b2, h2⟩ : ∃ b, (isPortInUse 8080 bind).result = .ok b :=
    ⟨_, isPortInUse_result 8080 bind (by decide)⟩
  obtain ⟨b3, h3⟩ : ∃ b, (isProcessRunning env "java.*jade.Boot" exec).result = .ok b :=
    ⟨_, isProcessRunning_result env "java.*jade.Boot" exec⟩
  refine ⟨⟨b1, b2, b3⟩, ?_, h1, h2, h3, ?_, ?_, ?_⟩
  · simp only [getServiceStatus, SERVICES, truthyPort, Option.getD_some, h1, h2, h3]
    rfl
  · rw [← h1]
    unfold isPortInUse
    rfl
  · rw [← h2]
    unfold isPortInUse
    rfl
  · rw [← h3]
    unfold isProcessRunning
    rfl

/-- C15: `isProcessRunning` never rejects. When the query returns an error
it yields false; otherwise, on win32 it yields true exactly when the output
contains `.exe`, and on the other platforms exactly when the trimmed output
is not empty. Trimming does not change whether the output contains `.exe`,
and the trimmed output is not empty exactly when the output has a character
that is not white space. -/
theorem process_probe_value (env : Env) (pattern : String) (exec : String → ExecResult) :
    (isProcessRunning env pattern exec).result
        = .ok (match (exec (processQuery env pattern)).error with
          | some _ => false
          | none =>
            if env.platform = "win32" then
              includes (exec (processQuery env pattern)).stdout ".exe"
            else trim (exec (processQuery env pattern)).stdout != "")
    ∧ includes (trim (exec (processQuery env pattern)).stdout) ".exe"
        = includes (exec (processQuery env pattern)).stdout ".exe"
    ∧ (trim (exec (processQuery env pattern)).stdout != "")
        = (exec (processQuery env pattern)).stdout.data.any (fun c => !isWhiteSpace c) := by
  exact ⟨isProcessRunning_result env pattern exec, includes_trim_exe _,
    trim_nonempty_eq_any _⟩

/-- C16 (counterexample): a process-table query that returns an error and a
bind attempt that fails with `EACCES` both make the probe yield false, and
neither probe prints anything. -/
theorem failed_probe_prints_nothing :
    (isProcessRunning posixEnv "java.*jade.Boot"
        (fun _ => { error := some "spawn /bin/sh EAGAIN", stdout := "" })).result = .ok false
    ∧ (isProcessRunning posixEnv "java.*jade.Boot"
        (fun _ => { error := some "spawn /bin/sh EAGAIN", stdout := "" })).log = []
    ∧ (isPortInUse 3000 (fun _ => .error "EACCES")).result = .ok false
    ∧ (isPortInUse 3000 (fun _ => .error "EACCES")).log = [] := by
  refine ⟨rfl, rfl, rfl, rfl⟩

/-- C16 (amended): whenever a liveness probe fails to query the operating
system (the process-table query returns an error, or the bind fails with a
code other than `EADDRINUSE`), the probe yields false and prints nothing. A
bind is attempted only for a port below 65536. -/
theorem failed_probe_yields_false_silently (env : Env) (pattern : String)
    (exec : String → ExecResult) (port : Nat) (bind : Nat → BindResult)
    (message code : String)
    (hexec : (exec (processQuery env pattern)).error = some message)
    (hport : port < 65536)
    (hbind : bind port = .error code) (hcode : code ≠ "EADDRINUSE") :
    (isProcessRunning env pattern exec).result = .ok false
    ∧ (isProcessRunning env pattern exec).log = []
    ∧ (isPortInUse port bind).result = .ok false
    ∧ (isPortInUse port bind).log = [] := by
  refine ⟨?_, ?_, ?_, ?_⟩
  · simp [isProcessRunning, hexec]
  · simp [isProcessRunning, hexec]
  · simp [isPortInUse, Nat.not_le.mpr hport, hbind, hcode]
  · simp [isPortInUse, Nat.not_le.mpr hport, hbind, hcode]

theorem failed_probe_yields_false_silently_witness :
    (isProcessRunning posixEnv "node server.js"
        (fun _ => { error := some "Command failed", stdout := "" })).result = .ok false
    ∧ (isProcessRunning posixEnv "node server.js"
        (fun _ => { error := some "Command failed", stdout := "" })).log = []
    ∧ (isPortInUse 8080 (fun _ => .error "EPERM")).result = .ok false
    ∧ (isPortInUse 8080 (fun _ => .error "EPERM")).log = [] :=
  failed_probe_yields_false_silently posixEnv "node server.js"
    (fun _ => { error := some "Command failed", stdout := "" }) 8080
    (fun _ => .error "EPERM") "Command failed" "EPERM" rfl (by decide) rfl (by decide)

theorem killCommands_ne_nil (env : Env) (options : Options) (status : Status) (s : ServiceId)
    (ht : stopTargets options s = true) (hr : isRunning status s = true) :
    killCommands env options status ≠ [] := by
  rw [killCommands_eq]
  intro h
  have hmem : s ∈ registered.filter (fun s => stopTargets options s && isRunning status s) := by
    rw [List.mem_filter]
    exact ⟨by cases s <;> decide, by simp [ht, hr]⟩
  rw [List.map_eq_nil_iff] at h
  rw [h] at hmem
  exact absurd hmem (List.not_mem_nil _)

theorem stopServices_trace_commands (env : Env) (options : Options) (status : Status)
    (exec : String → ExecResult) (newStatus : Status) :
    execCommands (stopServices env options status exec newStatus).trace
      = killCommands env options status := by
  by_cases h : killCommands env options status = []
  · simp [stopServices, h, execCommands]
  · rw [stopServices_log_issued env options status exec newStatus h]
    simp [execCommands, List.filterMap_append, List.filterMap_map, Function.comp_def]

/-! ## The claims on `stopServices` -/

/-- C17: when the status reports no targeted service as running,
`stopServices` passes no command to `exec`, probes the status only once,
reports the information line `No running services to stop`, and returns
normally. -/
theorem stop_nothing_running_is_noop (env : Env) (options : Options) (status : Status)
    (exec : String → ExecResult) (newStatus : Status)
    (hnone : ∀ s, stopTargets options s = true → isRunning status s = false) :
    (stopServices env options status exec newStatus).commands = []
    ∧ (stopServices env options status exec newStatus).trace = [StopAction.getServiceStatus]
    ∧ (stopServices env options status exec newStatus).log
        = [Log.spinnerStart "Stopping services...",
          Log.spinnerInfo "No running services to stop"]
    ∧ (stopServices env options status exec newStatus).result = .resolved := by
  have hnil : killCommands env options status = [] := by
    rw [killCommands_eq, List.map_eq_nil_iff, List.filter_eq_nil_iff]
    intro s _
    cases ht : stopTargets options s
    · simp
    · simp [hnone s ht]
  simp [stopServices, hnil]

theorem stop_nothing_running_is_noop_witness :
    (stopServices posixEnv ⟨true, false, false⟩ ⟨false, true, true⟩
        (fun _ => { error := none, stdout := "" }) ⟨false, true, true⟩).commands = []
    ∧ (stopServices posixEnv ⟨true, false, false⟩ ⟨false, true, true⟩
        (fun _ => { error := none, stdout := "" }) ⟨false, true, true⟩).trace
        = [StopAction.getServiceStatus]
    ∧ (stopServices posixEnv ⟨true, false, false⟩ ⟨false, true, true⟩
        (fun _ => { error := none, stdout := "" }) ⟨false, true, true⟩).log
        = [Log.spinnerStart "Stopping services...",
          Log.spinnerInfo "No running services to stop"]
    ∧ (stopServices posixEnv ⟨true, false, false⟩ ⟨false, true, true⟩
        (fun _ => { error := none, stdout := "" }) ⟨false, true, true⟩).result = .resolved :=
  stop_nothing_running_is_noop posixEnv ⟨true, false, false⟩ ⟨false, true, true⟩
    (fun _ => { error := none, stdout := "" }) ⟨false, true, true⟩
    (by intro s; cases s <;> decide)

/-- C18: the commands that `stopServices` passes to `exec` are, in the order
of the table, one command for each service that is both targeted and
reported as running, and no other: `pkill -f "<pattern>"`, or on win32
`taskkill /F /FI "WINDOWTITLE eq *<pattern>*" /T`, with the process pattern
of the service. The commands are pairwise distinct, and the command of a
service occurs once if the service is targeted and running and not at all
otherwise. -/
theorem stop_issues_one_command_per_running_target (env : Env) (options : Options)
    (status : Status) (exec : String → ExecResult) (newStatus : Status) (s : ServiceId) :
    (stopServices env options status exec newStatus).commands
        = (registered.filter (fun t => stopTargets options t && isRunning status t)).map
          (fun t =>
            if env.platform = "win32" then
              "taskkill /F /FI \"WINDOWTITLE eq *" ++ (SERVICES env t).processNamePattern
                ++ "*\" /T"
            else "pkill -f \"" ++ (SERVICES env t).processNamePattern ++ "\"")
    ∧ execCommands (stopServices env options status exec newStatus).trace
        = (stopServices env options status exec newStatus).commands
    ∧ (stopServices env options status exec newStatus).commands.Nodup
    ∧ (stopServices env options status exec newStatus).commands.count
          (if env.platform = "win32" then
            "taskkill /F /FI \"WINDOWTITLE eq *" ++ (SERVICES env s).processNamePattern
              ++ "*\" /T"
          else "pkill -f \"" ++ (SERVICES env s).processNamePattern ++ "\"")
        = (if stopTargets options s = true ∧ isRunning status s = true then 1 else 0) := by
  have hinj : Function.Injective (killCommand env) := fun a b h =>
    killCommand_injective env a b h
  have hnodup : (registered.filter
      (fun t => stopTargets options t && isRunning status t)).Nodup :=
    List.Nodup.filter _ (by decide)
  rw [stopServices_trace_commands, stopServices_commands, killCommands_eq]
  refine ⟨rfl, rfl, hnodup.map hinj, ?_⟩
  change List.count (killCommand env s) _ = _
  rw [List.count_map_of_injective _ _ hinj, List.count_eq_of_nodup hnodup]
  have hreg : s ∈ registered := by cases s <;> decide
  simp [List.mem_filter, hreg]

/-- C19: the run of `stopServices` is the same whatever the terminate
commands return (success, `no matching process`, or any other error), for
the same options and the same statuses before and after; the promise it
returns is never rejected. -/
theorem stop_ignores_kill_results (env : Env) (options : Options) (status : Status)
    (exec exec2 : String → ExecResult) (newStatus : Status) :
    stopServices env options status exec newStatus
        = stopServices env options status exec2 newStatus
    ∧ (stopServices env options status exec newStatus).result = .resolved
    ∧ (∀ message, (stopServices env options status exec newStatus).result
        ≠ .rejected message) := by
  have hres : ∀ e : String → ExecResult,
      (stopServices env options status e newStatus).result = .resolved := by
    intro e
    by_cases h : killCommands env options status = []
    · simp [stopServices, h]
    · rw [stopServices_log_issued env options status e newStatus h]
  refine ⟨?_, hres exec, ?_⟩
  · by_cases h : killCommands env options status = []
    · simp [stopServices, h]
    · rw [stopServices_log_issued env options status exec newStatus h,
        stopServices_log_issued env options status exec2 newStatus h]
  · intro message
    rw [hres exec]
    simp

/-- C20: when at least one targeted service is reported as running,
`stopServices` runs its terminate commands, probes the status again once all
of them have completed, and returns normally. It reports `Services stopped`
when no targeted service is running in the second status; otherwise it
warns `Some services may still be running` and names as still running
exactly the targeted services that are running in the second status. The
run is the same whatever the second status says about the services that are
not targeted. -/
theorem stop_reports_from_second_status (env : Env) (options : Options) (status : Status)
    (exec : String → ExecResult) (newStatus other : Status) (s : ServiceId)
    (htarget : stopTargets options s = true) (hrunning : isRunning status s = true) :
    (stopServices env options status exec newStatus).trace
        = [StopAction.getServiceStatus]
          ++ (stopServices env options status exec newStatus).commands.map StopAction.exec
          ++ [StopAction.killsSettled, StopAction.getServiceStatus]
    ∧ (stopServices env options status exec newStatus).commands ≠ []
    ∧ (stopServices env options status exec newStatus).result = .resolved
    ∧ (stopServices env options status exec newStatus).log
        = (if (registered.filter
              (fun t => stopTargets options t && isRunning newStatus t)) = [] then
            [Log.spinnerStart "Stopping services...", Log.spinnerSucceed "Services stopped"]
          else
            [Log.spinnerStart "Stopping services...",
              Log.spinnerWarn "Some services may still be running"]
            ++ (registered.filter
                (fun t => stopTargets options t && isRunning newStatus t)).map
              (fun t => Log.consoleYellow ((SERVICES env t).name ++ " is still running")))
    ∧ stopServices env options status exec (onTargets options newStatus other)
        = stopServices env options status exec newStatus := by
  have hissued := killCommands_ne_nil env options status s htarget hrunning
  have hfilter : registered.filter
        (fun t => stopTargets options t && isRunning (onTargets options newStatus other) t)
      = registered.filter (fun t => stopTargets options t && isRunning newStatus t) := by
    cases h1 : stopTargets options .middleware <;> cases h2 : stopTargets options .ui <;>
      cases h3 : stopTargets options .jade <;>
      simp [registered, isRunning, onTargets, h1, h2, h3, List.filter_cons]
  rw [stopServices_log_issued env options status exec (onTargets options newStatus other)
      hissued,
    stopServices_log_issued env options status exec newStatus hissued, hfilter]
  exact ⟨rfl, hissued, rfl, rfl, rfl⟩

theorem stop_reports_from_second_status_witness :
    (stopServices posixEnv ⟨false, false, true⟩ ⟨false, false, true⟩
        (fun _ => { error := some "Command failed: pkill", stdout := "" })
        ⟨true, false, true⟩).log
      = [Log.spinnerStart "Stopping services...",
          Log.spinnerWarn "Some services may still be running",
          Log.consoleYellow "JADE Platform is still running"]
    ∧ stopServices posixEnv ⟨false, false, true⟩ ⟨false, false, true⟩
        (fun _ => { error := some "Command failed: pkill", stdout := "" })
        (onTargets ⟨false, false, true⟩ ⟨true, false, true⟩ ⟨false, true, false⟩)
      = stopServices posixEnv ⟨false, false, true⟩ ⟨false, false, true⟩
        (fun _ => { error := some "Command failed: pkill", stdout := "" })
        ⟨true, false, true⟩ :=
  ⟨by decide,
    (stop_reports_from_second_status posixEnv ⟨false, false, true⟩ ⟨false, false, true⟩
      (fun _ => { error := some "Command failed: pkill", stdout := "" })
      ⟨true, false, true⟩ ⟨false, true, false⟩ .jade rfl rfl).2.2.2.2⟩

/-! ## Lemmas on the helpers of the command line and of the browser client -/

theorem endsWith_iff (s suffix : String) : endsWith s suffix = true ↔ suffix.data <:+ s.data := by
  unfold endsWith
  exact List.isSuffixOf_iff_suffix

theorem endsWith_outputFile (filename : String) : endsWith (outputFile filename) ".png" = true := by
  unfold outputFile
  by_cases h : endsWith filename ".png" = true
  · rw [if_pos h]
    exact h
  · rw [if_neg h, endsWith_iff, String.data_append]
    exact List.suffix_append _ _

theorem wsStep_bounded (s : WsState) (e : WsEvent)
    (hs : s.reconnectAttempts ≤ maxReconnectAttempts) :
    (wsStep s e).reconnectAttempts ≤ maxReconnectAttempts := by
  cases e with
  | opened => simp [wsStep]
  | errored => simpa [wsStep] using hs
  | closed =>
    simp only [wsStep]
    split
    · simp only
      omega
    · simpa using hs
  | constructorThrew =>
    simp only [wsStep]
    split
    · simp only
      omega
    · simpa using hs

theorem foldl_wsStep_bounded (events : List WsEvent) (s : WsState)
    (hs : s.reconnectAttempts ≤ maxReconnectAttempts) :
    (events.foldl wsStep s).reconnectAttempts ≤ maxReconnectAttempts := by
  induction events generalizing s with
  | nil => exact hs
  | cons e es ih =>
    rw [List.foldl_cons]
    exact ih _ (wsStep_bounded s e hs)

theorem updateStatus_ready_light (ui : Ui) :
    "ready" ∈ (updateStatus ui "Ready" (some "ready")).statusLight
    ∧ "error" ∉ (updateStatus ui "Ready" (some "ready")).statusLight := by
  simp only [updateStatus, classListAdd, classListRemove]
  have hne : ("ready" != "") = true := by decide
  simp only [hne, if_true]
  split
  · rename_i h
    refine ⟨?_, ?_⟩
    · simpa using h
    · simp [List.mem_filter]
  · refine ⟨by simp, ?_⟩
    simp [List.mem_filter]

/-! ## The claims on the health check, the command line helpers and the browser client -/

/-- C21 (counterexample): for a service whose health-check URL has the
protocol `https:`, `http.get` throws inside the executor and the promise of
`checkServiceHealth` is rejected with the error thrown. -/
theorem health_check_rejects_on_throw :
    checkServiceHealth
        { SERVICES posixEnv .middleware with healthCheck := some "https://localhost:3000/" }
        (.threw "Protocol \"https:\" not supported. Expected \"http:\"")
      = .error "Protocol \"https:\" not supported. Expected \"http:\"" := by
  rfl

/-- C21 (amended): `checkServiceHealth` rejects only when `http.get` itself
throws, and then with the error thrown. Otherwise, for a service with a
health-check URL it yields true exactly when the status code of the response
is at least 200 and below 400, and false when the request ends with an
error; for a service without a health-check URL it makes no request and
yields true. -/
theorem health_check_value (service : Service) (http : HttpResult) :
    checkServiceHealth service http
      = (if truthy service.healthCheck = true then
          match http with
          | .response statusCode => .ok (decide (200 ≤ statusCode ∧ statusCode < 400))
          | .error => .ok false
          | .threw message => .error message
        else .ok true) := by
  unfold checkServiceHealth
  cases h : truthy service.healthCheck
  · simp
  · cases http with
    | response statusCode => simp [Bool.decide_and]
    | error => simp
    | threw message => simp

/-- C22: the output file name of `captureScreenshot` always ends with
`.png`: a name that already ends with `.png` is used unchanged, any other
name gets `.png` appended, and ensuring the extension of an output file name
changes nothing. The name is the one put into the command. -/
theorem output_file_has_png_extension (filename : String) :
    ".png".data <:+ (outputFile filename).data
    ∧ ((".png".data <:+ filename.data ∧ outputFile filename = filename)
      ∨ (¬ ".png".data <:+ filename.data ∧ outputFile filename = filename ++ ".png"))
    ∧ outputFile (outputFile filename) = outputFile filename
    ∧ captureScreenshot true filename
      = some ("adb shell screencap -p /sdcard/screenshot.png && adb pull /sdcard/screenshot.png \""
          ++ outputFile filename ++ "\" && adb shell rm /sdcard/screenshot.png")
    ∧ outputFile "shot" = "shot.png" ∧ outputFile "shot.png" = "shot.png" := by
  refine ⟨(endsWith_iff _ _).mp (endsWith_outputFile filename), ?_, ?_, rfl, by decide,
    by decide⟩
  · by_cases h : endsWith filename ".png" = true
    · left
      exact ⟨(endsWith_iff _ _).mp h, by simp [outputFile, h]⟩
    · right
      exact ⟨fun hs => h ((endsWith_iff _ _).mpr hs), by simp [outputFile, h]⟩
  · have h := endsWith_outputFile filename
    generalize outputFile filename = name at h
    simp [outputFile, h]

/-- C23: after every sequence of connection events `reconnectAttempts` is at
most `maxReconnectAttempts`, which is 5. An open resets it to 0; a close or
a throwing constructor increments it by one and schedules one reconnection
when it is below the maximum, and leaves it unchanged and schedules nothing
when it has reached the maximum; an error event changes neither. -/
theorem reconnect_attempts_bounded (connectionStatus : String) (events : List WsEvent)
    (e : WsEvent) :
    (wsRun connectionStatus events).reconnectAttempts ≤ maxReconnectAttempts
    ∧ maxReconnectAttempts = 5
    ∧ (wsStep (wsRun connectionStatus events) e).reconnectAttempts
        = (match e with
          | .opened => 0
          | .errored => (wsRun connectionStatus events).reconnectAttempts
          | _ =>
            if (wsRun connectionStatus events).reconnectAttempts < 5 then
              (wsRun connectionStatus events).reconnectAttempts + 1
            else (wsRun connectionStatus events).reconnectAttempts)
    ∧ (wsStep (wsRun connectionStatus events) e).scheduled
        = (wsRun connectionStatus events).scheduled
          + (match e with
            | .opened => 0
            | .errored => 0
            | _ => if (wsRun connectionStatus events).reconnectAttempts < 5 then 1 else 0) := by
  refine ⟨foldl_wsStep_bounded events _ (Nat.zero_le _), rfl, ?_, ?_⟩
  · cases e <;> simp only [wsStep, maxReconnectAttempts] <;> split <;> rfl
  · cases e <;> simp only [wsStep, maxReconnectAttempts] <;> first | rfl | (split <;> rfl)

/-- C24: whatever happens in `sendCommandViaREST`, the status text is
`Ready` when it completes, and the status light has the class `ready` and
not the class `error`. When the server answers with a response that is not
OK, or something throws, the status is first set to `Error` (class `error`)
and then overwritten by the `finally` block. -/
theorem rest_command_ends_ready (ui : Ui) (result : RestResult) :
    (sendCommandViaREST ui result).statusText = "Ready"
    ∧ "ready" ∈ (sendCommandViaREST ui result).statusLight
    ∧ "error" ∉ (sendCommandViaREST ui result).statusLight
    ∧ (∀ errorMessage, (restBody ui (.notOk errorMessage)).statusText = "Error"
        ∧ "error" ∈ (restBody ui (.notOk errorMessage)).statusLight)
    ∧ (∀ message, (restBody ui (.threw message)).statusText = "Error"
        ∧ "error" ∈ (restBody ui (.threw message)).statusLight) := by
  have hlight := updateStatus_ready_light (restBody ui result)
  have herr : ∀ u : Ui, "error" ∈ (updateStatus u "Error" (some "error")).statusLight := by
    intro u
    simp only [updateStatus, classListAdd]
    have hne : ("error" != "") = true := by decide
    simp only [hne, if_true]
    split
    · rename_i h
      simpa using h
    · simp
  refine ⟨rfl, hlight.1, hlight.2, ?_, ?_⟩
  · intro errorMessage
    exact ⟨rfl, herr _⟩
  · intro message
    exact ⟨rfl, herr _⟩

/-- C25: `getTimeDiff` returns `Never` when the timestamp is absent. With
d = now - timestamp in milliseconds it returns `Just now` when d < 1000,
also when d is negative; the whole number of seconds of d followed by
`s ago` when 1000 ≤ d < 60000; the whole number of minutes followed by
`m ago` when 60000 ≤ d < 3600000; and the whole number of hours followed by
`h ago` otherwise. The number shown is at least 1, and below 60 for seconds
and minutes. -/
theorem time_diff_ranges (timestamp now : Int) :
    getTimeDiff none now = "Never"
    ∧ ((now - timestamp < 1000 ∧ getTimeDiff (some timestamp) now = "Just now")
      ∨ (1000 ≤ now - timestamp ∧ now - timestamp < 60000
        ∧ ∃ n : Int, 1 ≤ n ∧ n < 60 ∧ 1000 * n ≤ now - timestamp
          ∧ now - timestamp < 1000 * (n + 1)
          ∧ getTimeDiff (some timestamp) now = toString n ++ "s ago")
      ∨ (60000 ≤ now - timestamp ∧ now - timestamp < 3600000
        ∧ ∃ n : Int, 1 ≤ n ∧ n < 60 ∧ 60000 * n ≤ now - timestamp
          ∧ now - timestamp < 60000 * (n + 1)
          ∧ getTimeDiff (some timestamp) now = toString n ++ "m ago")
      ∨ (3600000 ≤ now - timestamp
        ∧ ∃ n : Int, 1 ≤ n ∧ 3600000 * n ≤ now - timestamp
          ∧ now - timestamp < 3600000 * (n + 1)
          ∧ getTimeDiff (some timestamp) now = toString n ++ "h ago"))
    ∧ getTimeDiff (some 5000) 4000 = "Just now"
    ∧ getTimeDiff (some 0) 999 = "Just now"
    ∧ getTimeDiff (some 0) 1000 = "1s ago"
    ∧ getTimeDiff (some 0) 59999 = "59s ago"
    ∧ getTimeDiff (some 0) 60000 = "1m ago"
    ∧ getTimeDiff (some 0) 3599999 = "59m ago"
    ∧ getTimeDiff (some 0) 3600000 = "1h ago" := by
  refine ⟨rfl, ?_, by decide, by decide, by decide, by decide, by decide, by decide,
    by decide⟩
  unfold getTimeDiff
  by_cases h1 : now - timestamp < 1000
  · left
    exact ⟨h1, by simp [h1]⟩
  · right
    by_cases h2 : now - timestamp < 60000
    · left
      refine ⟨by omega, h2, (now - timestamp) / 1000, by omega, by omega, by omega, by omega, ?_⟩
      simp [h1, h2]
    · right
      by_cases h3 : now - timestamp < 3600000
      · left
        refine ⟨by omega, h3, (now - timestamp) / 60000, by omega, by omega, by omega,
          by omega, ?_⟩
        simp [h1, h2, h3]
      · right
        refine ⟨by omega, (now - timestamp) / 3600000, by omega, by omega, by omega, ?_⟩
        simp [h1, h2, h3]

end VoiceAgent
